import Mathlib

/-!
Verification of the multiplayer relay server of the tic-tac-toe repository:
`GameRoomManager` (room join/leave/relay/timeout logic), `RateLimiter`
(per-IP connection tracking, per-socket event rate limiting, payload size
validation) and the shared constants, shallowly embedded as executable
Lean definitions.  Time is modelled as a natural number of milliseconds.
-/

namespace TicTacToe

/-! ### Shared constants (shared/constants.ts) -/

/-- Maximum number of players allowed in a single room. -/
def MAX_PLAYERS_PER_ROOM : Nat := 2

/-- Maximum length of a room name. -/
def MAX_ROOM_NAME_LENGTH : Nat := 20

/-- Inactivity timeout in milliseconds before disconnecting all clients in a room. -/
def ROOM_INACTIVITY_TIMEOUT_MS : Nat := 600000

/-- Maximum number of concurrent rooms allowed on the server. -/
def MAX_TOTAL_ROOMS : Nat := 10000

/-- Maximum size of game state payload (the JS code compares the string length
of the JSON serialization against this constant). -/
def MAX_GAME_STATE_SIZE : Nat := 102400

/-- Maximum number of WebSocket connections allowed per IP address. -/
def MAX_CONNECTIONS_PER_IP : Nat := 100

/-- Rate limit configuration entry: `points` requests allowed per `duration` seconds. -/
structure RateLimitConfig where
  points : Nat
  duration : Nat
deriving DecidableEq

/-- RATE_LIMITS.JOIN_ROOM: 5 requests per 10 seconds. -/
def JOIN_ROOM_LIMIT : RateLimitConfig := ⟨5, 10⟩

/-- RATE_LIMITS.GAME_STATE: 30 requests per 10 seconds. -/
def GAME_STATE_LIMIT : RateLimitConfig := ⟨30, 10⟩

/-- RATE_LIMITS.REQUEST_STATE: 10 requests per 10 seconds. -/
def REQUEST_STATE_LIMIT : RateLimitConfig := ⟨10, 10⟩

/-- RATE_LIMITS.SEND_STATE: 10 requests per 10 seconds. -/
def SEND_STATE_LIMIT : RateLimitConfig := ⟨10, 10⟩

/-! ### Association-list maps

JS `Map` objects (`rooms`, `roomTimeouts`, `connectionCounts`, the limiter
storage) are embedded as association lists; `mapSet` removes any previous
binding of the key so lookups and sizes agree with `Map.set`. -/

/-- Lookup in an association list, as JS `Map.get` (none = `undefined`). -/
def mapGet {α : Type} : List (String × α) → String → Option α
  | [], _ => none
  | (k, v) :: m, k0 => if k0 = k then some v else mapGet m k0

/-- Remove every binding of a key, as JS `Map.delete`. -/
def mapErase {α : Type} (m : List (String × α)) (k : String) : List (String × α) :=
  m.filter (fun p => p.1 ≠ k)

/-- Overwrite the binding of a key, as JS `Map.set`. -/
def mapSet {α : Type} (m : List (String × α)) (k : String) (v : α) : List (String × α) :=
  (k, v) :: mapErase m k

/-! ### Room name validation

`ROOM_NAME_REGEX = /^[a-zA-Z0-9-]+$/` together with the falsy check on the
name and the length bound, exactly as tested in `handleJoinRoom`. -/

/-- A character matched by the room-name character class `[a-zA-Z0-9-]`. -/
def isRoomNameChar (c : Char) : Bool :=
  (97 ≤ c.toNat && c.toNat ≤ 122) || (65 ≤ c.toNat && c.toNat ≤ 90) ||
    (48 ≤ c.toNat && c.toNat ≤ 57) || c.toNat == 45

/-- The room-name test performed by `handleJoinRoom`:
`!roomName || !ROOM_NAME_REGEX.test(roomName) || roomName.length > MAX_ROOM_NAME_LENGTH`
(negated: the name is accepted). -/
def validRoomName (s : String) : Bool :=
  !s.isEmpty && s.data.all isRoomNameChar && decide (s.data.length ≤ MAX_ROOM_NAME_LENGTH)

/-! ### Rate limiter storage (rate-limiter-flexible, `RateLimiterMemory`)

The repository delegates rate limiting to the `rate-limiter-flexible`
library's `RateLimiterMemory`: per key it stores a record of consumed
points with an expiry set `duration` seconds after the first consume of the
window; `consume` always increments the record (creating a fresh one when
the record is absent or expired) and admits the request iff the consumed
count does not exceed `points`.  A denied consume neither resets nor
extends the window. -/

/-- Per-key storage record of `RateLimiterMemory`: consumed points of the
current window and the window's expiry time (ms). -/
structure LimiterRecord where
  consumed : Nat
  expiresAt : Nat
deriving DecidableEq

/-- The in-memory storage of one `RateLimiterMemory` instance. -/
abbrev Limiter := List (String × LimiterRecord)

/-- `RateLimiterMemory.consume(key)` at time `now` (ms): returns whether the
request is admitted together with the updated storage. -/
def limiterConsume (cfg : RateLimitConfig) (m : Limiter) (key : String) (now : Nat) :
    Bool × Limiter :=
  match mapGet m key with
  | none => (decide (1 ≤ cfg.points), mapSet m key ⟨1, now + cfg.duration * 1000⟩)
  | some r =>
    if r.expiresAt ≤ now then
      (decide (1 ≤ cfg.points), mapSet m key ⟨1, now + cfg.duration * 1000⟩)
    else
      (decide (r.consumed + 1 ≤ cfg.points), mapSet m key ⟨r.consumed + 1, r.expiresAt⟩)

/-! ### JSON values and `JSON.stringify`

`validateGameStateSize` serializes the incoming opaque state with
`JSON.stringify` and compares the JS string length (UTF-16 code units) of
the result against `MAX_GAME_STATE_SIZE`.  JSON-serializable JS values are
embedded as `JsValue` (numbers restricted to integers, whose JS rendering
agrees with decimal notation); an unserializable input (cyclic structure,
`BigInt`, a top-level `undefined`, for which `JSON.stringify` throws or the
subsequent `.length` access throws) is modelled as `none` in
`Option JsValue`. -/

/-- A JSON-serializable JS value (numbers restricted to integers). -/
inductive JsValue where
  | null : JsValue
  | bool : Bool → JsValue
  | num : Int → JsValue
  | str : String → JsValue
  | arr : List JsValue → JsValue
  | obj : List (String × JsValue) → JsValue

/-- The double-quote character. -/
def quoteChar : Char := Char.ofNat 34

/-- The backslash character. -/
def bslashChar : Char := Char.ofNat 92

/-- Lowercase hexadecimal digit, as produced by JS unicode escapes. -/
def hexDigit (n : Nat) : Char :=
  if n < 10 then Char.ofNat (48 + n) else Char.ofNat (87 + n)

/-- The escape `JSON.stringify` applies to one character inside a string
literal: double quote and backslash are backslash-escaped, the five named
control characters use their short escapes, the remaining control
characters use a `\u00xx` escape and every other character is unescaped. -/
def escapeChar (c : Char) : List Char :=
  if c = quoteChar then [bslashChar, quoteChar]
  else if c = bslashChar then [bslashChar, bslashChar]
  else if c.toNat = 8 then [bslashChar, 'b']
  else if c.toNat = 9 then [bslashChar, 't']
  else if c.toNat = 10 then [bslashChar, 'n']
  else if c.toNat = 12 then [bslashChar, 'f']
  else if c.toNat = 13 then [bslashChar, 'r']
  else if c.toNat < 32 then
    [bslashChar, 'u', '0', '0', hexDigit (c.toNat / 16), hexDigit (c.toNat % 16)]
  else [c]

/-- Escape every character of a JSON string body. -/
def escapeChars : List Char → List Char
  | [] => []
  | c :: cs => escapeChar c ++ escapeChars cs

/-- A JSON string literal: quote, escaped body, quote. -/
def jsonStringChars (s : String) : List Char :=
  quoteChar :: (escapeChars s.data ++ [quoteChar])

mutual

/-- The character sequence `JSON.stringify` produces for a `JsValue`. -/
def jsonChars : JsValue → List Char
  | .null => "null".data
  | .bool true => "true".data
  | .bool false => "false".data
  | .num n => (toString n).data
  | .str s => jsonStringChars s
  | .arr xs => '[' :: (jsonCharsList xs ++ [']'])
  | .obj fs => Char.ofNat 123 :: (jsonCharsFields fs ++ [Char.ofNat 125])

/-- Comma-separated serialization of the elements of a JSON array. -/
def jsonCharsList : List JsValue → List Char
  | [] => []
  | [x] => jsonChars x
  | x :: xs => jsonChars x ++ ',' :: jsonCharsList xs

/-- Comma-separated serialization of the fields of a JSON object. -/
def jsonCharsFields : List (String × JsValue) → List Char
  | [] => []
  | [(k, v)] => jsonStringChars k ++ ':' :: jsonChars v
  | (k, v) :: fs => (jsonStringChars k ++ ':' :: jsonChars v) ++ ',' :: jsonCharsFields fs

end

/-- `JSON.stringify` of a serializable value. -/
def stringify (v : JsValue) : String :=
  String.mk (jsonChars v)

/-- JS string length: the number of UTF-16 code units (characters beyond the
basic multilingual plane count as a surrogate pair). -/
def utf16Length (cs : List Char) : Nat :=
  (cs.map fun c => if 0x10000 ≤ c.toNat then 2 else 1).sum

/-- Byte count of the UTF-8 encoding of one unicode scalar value. -/
def charUtf8Size (c : Char) : Nat :=
  if c.toNat ≤ 0x7F then 1 else if c.toNat ≤ 0x7FF then 2
  else if c.toNat ≤ 0xFFFF then 3 else 4

/-- Byte length of the UTF-8 encoding of a character sequence. -/
def utf8Length (cs : List Char) : Nat :=
  (cs.map charUtf8Size).sum

/-- `validateGameStateSize(state)` from `RateLimiter.ts`: serializes the
state and compares `serialized.length` (JS string length) against
`MAX_GAME_STATE_SIZE`; a serialization failure (`none`) is caught and
rejected. -/
def validateGameStateSize : Option JsValue → Bool
  | none => false
  | some v => decide (utf16Length (jsonChars v) ≤ MAX_GAME_STATE_SIZE)

/-! ### Per-IP connection tracking (`RateLimiter.ts`) -/

/-- The `connectionCounts` map: IP address → number of open connections. -/
abbrev ConnectionCounts := List (String × Nat)

/-- `trackConnection(ip)`: refuses (without mutation) when the address is at
`MAX_CONNECTIONS_PER_IP`, otherwise increments its count and admits. -/
def trackConnection (m : ConnectionCounts) (ip : String) : Bool × ConnectionCounts :=
  let current := (mapGet m ip).getD 0
  if MAX_CONNECTIONS_PER_IP ≤ current then (false, m)
  else (true, mapSet m ip (current + 1))

/-- `releaseConnection(ip)`: deletes the address entry when its count is at
most one, otherwise decrements it. -/
def releaseConnection (m : ConnectionCounts) (ip : String) : ConnectionCounts :=
  let current := (mapGet m ip).getD 0
  if current ≤ 1 then mapErase m ip else mapSet m ip (current - 1)

/-! ### Server state (`GameRoomManager`)

The mutable server state relevant to the room manager: the Socket.IO
adapter's game rooms (room name → member socket ids, in join order; the
adapter deletes a room as soon as it becomes empty), the `roomTimeouts` map
(room name → absolute deadline of the pending inactivity timer) and the
four per-socket limiter storages.  The adapter's per-socket personal rooms
(each socket is also in a room named by its own id) play no role in the
room logic and are not modelled. -/

/-- The Socket.IO adapter's game rooms: room name → member socket ids. -/
abbrev Rooms := List (String × List String)

/-- Server state mutated by `GameRoomManager` and the rate limiters. -/
structure ServerState where
  rooms : Rooms
  roomTimeouts : List (String × Nat)
  joinLimiter : Limiter
  gameLimiter : Limiter
  requestLimiter : Limiter
  sendLimiter : Limiter

/-- The freshly started server: no rooms, no timers, empty limiter storages. -/
def initialServer : ServerState :=
  ⟨[], [], [], [], [], []⟩

/-- `socket.join(roomName)`: adds the socket to the room's member set
(creating the room) — a no-op when the socket is already a member. -/
def adapterJoin (rooms : Rooms) (name sid : String) : Rooms :=
  match mapGet rooms name with
  | none => mapSet rooms name [sid]
  | some ms => if sid ∈ ms then rooms else mapSet rooms name (ms ++ [sid])

/-- `socket.leave(roomName)`: removes the socket from the room's member set;
the adapter deletes the room when it becomes empty. -/
def adapterLeave (rooms : Rooms) (name sid : String) : Rooms :=
  match mapGet rooms name with
  | none => rooms
  | some ms =>
    let ms0 := ms.erase sid
    if ms0.isEmpty then mapErase rooms name else mapSet rooms name ms0

/-- `getRoomPlayerCount(roomName)`: room size in the adapter, 0 if absent. -/
def getRoomPlayerCount (rooms : Rooms) (name : String) : Nat :=
  match mapGet rooms name with
  | none => 0
  | some ms => ms.length

/-- `getTotalRoomCount()`: the size of the `roomTimeouts` map. -/
def getTotalRoomCount (s : ServerState) : Nat :=
  s.roomTimeouts.length

/-- `resetRoomTimeout(roomName)` at time `now`: clears any pending timer for
the room and schedules a fresh one that fires `ROOM_INACTIVITY_TIMEOUT_MS`
from now. -/
def resetRoomTimeout (s : ServerState) (name : String) (now : Nat) : ServerState :=
  { s with roomTimeouts := mapSet s.roomTimeouts name (now + ROOM_INACTIVITY_TIMEOUT_MS) }

/-- `clearRoomTimeout(roomName)`: cancels the pending timer, if any, and
drops the map entry. -/
def clearRoomTimeout (s : ServerState) (name : String) : ServerState :=
  { s with roomTimeouts := mapErase s.roomTimeouts name }

/-- An outbound action of the server: Socket.IO emissions and forced
disconnects, with their addressing mode. -/
inductive Emit where
  /-- `socket.to(room).emit(PLAYER_LEFT)`: to the room except the sender. -/
  | playerLeft (room sender : String)
  /-- `socket.to(room).emit(PLAYER_JOINED, playerCount)`. -/
  | playerJoined (room sender : String) (playerCount : Nat)
  /-- `socket.to(room).emit(GAME_STATE, state)`: broadcast relay. -/
  | gameStateToRoom (room sender : String) (state : Option JsValue)
  /-- `io.to(targetId).emit(GAME_STATE, state)`: direct delivery. -/
  | gameStateToSocket (targetId : String) (state : Option JsValue)
  /-- `socket.to(room).emit(STATE_REQUESTED, requesterId)`. -/
  | stateRequested (room sender requesterId : String)
  /-- `io.to(room).emit(ROOM_TIMEOUT)`: to every room member. -/
  | roomTimeout (room : String)
  /-- `socket.disconnect(true)` issued against a socket. -/
  | forceDisconnect (sid : String)

/-- `leaveCurrentRoom(socket, roomName)`: notifies the remaining members,
removes the socket from the room and clears the room's timer when the room
is now empty. -/
def leaveCurrentRoom (s : ServerState) (sid room : String) : ServerState × List Emit :=
  let rooms1 := adapterLeave s.rooms room sid
  let s1 : ServerState := { s with rooms := rooms1 }
  let s2 := if getRoomPlayerCount rooms1 room = 0 then clearRoomTimeout s1 room else s1
  (s2, [.playerLeft room sid])

/-- The acknowledgment sent for a JOIN_ROOM event. -/
structure JoinRoomResponse where
  success : Bool
  error : Option String
  isRoomOwner : Option Bool
  playerCount : Option Nat
deriving DecidableEq

/-- A failure acknowledgment with its reason string. -/
def joinFailure (msg : String) : JoinRoomResponse :=
  ⟨false, some msg, none, none⟩

/-- Result of `handleJoinRoom`: updated server state, the value the
`currentRoom` closure variable is assigned, the acknowledgment and the
emissions, in order. -/
structure JoinOutcome where
  state : ServerState
  newCurrentRoom : Option String
  response : JoinRoomResponse
  emits : List Emit

/-- `handleJoinRoom(socket, roomName, currentRoom, callback)` at time `now`:
consumes a join-room rate-limit token, validates the name, applies the
global room cap (new rooms only) and the per-room capacity check, then
leaves the current room, joins the new one, notifies the other member and
resets the room's inactivity timer. -/
def handleJoinRoom (s : ServerState) (sid roomName : String) (currentRoom : Option String)
    (now : Nat) : JoinOutcome :=
  let c := limiterConsume JOIN_ROOM_LIMIT s.joinLimiter sid now
  let s := { s with joinLimiter := c.2 }
  if !c.1 then
    ⟨s, currentRoom, joinFailure "Too many requests. Please slow down.", []⟩
  else if !validRoomName roomName then
    ⟨s, currentRoom, joinFailure "Invalid room name.", []⟩
  else
    let playerCount := getRoomPlayerCount s.rooms roomName
    if playerCount = 0 ∧ MAX_TOTAL_ROOMS ≤ getTotalRoomCount s then
      ⟨s, currentRoom, joinFailure "Server is at capacity. Please try again later.", []⟩
    else if MAX_PLAYERS_PER_ROOM ≤ playerCount then
      ⟨s, currentRoom, joinFailure "Maximum 2 players allowed.", []⟩
    else
      let le := match currentRoom with
        | some r => leaveCurrentRoom s sid r
        | none => (s, [])
      let s1 : ServerState := { le.1 with rooms := adapterJoin le.1.rooms roomName sid }
      let isRoomOwner := playerCount = 0
      let newPlayerCount := playerCount + 1
      let s2 := resetRoomTimeout s1 roomName now
      ⟨s2, some roomName,
        ⟨true, none, some (decide isRoomOwner), some newPlayerCount⟩,
        le.2 ++ [.playerJoined roomName sid newPlayerCount]⟩

/-- `handleLeaveRoom(socket, currentRoom, callback)`: leaves the current
room when there is one, always acknowledges success, and clears the
`currentRoom` closure variable. -/
def handleLeaveRoom (s : ServerState) (sid : String) (currentRoom : Option String) :
    ServerState × Option String × List Emit :=
  match currentRoom with
  | some r =>
    let le := leaveCurrentRoom s sid r
    (le.1, none, le.2)
  | none => (s, none, [])

/-- `handleGameState(socket, currentRoom, state)` at time `now`: requires a
current room, consumes a game-state token, validates the payload size,
resets the room's inactivity timer and relays the state to the other room
members. -/
def handleGameState (s : ServerState) (sid : String) (currentRoom : Option String)
    (state : Option JsValue) (now : Nat) : ServerState × List Emit :=
  match currentRoom with
  | none => (s, [])
  | some room =>
    let c := limiterConsume GAME_STATE_LIMIT s.gameLimiter sid now
    let s := { s with gameLimiter := c.2 }
    if !c.1 then (s, [])
    else if !validateGameStateSize state then (s, [])
    else (resetRoomTimeout s room now, [.gameStateToRoom room sid state])

/-- `handleRequestState(socket, currentRoom)` at time `now`: requires a
current room, consumes a request-state token, resets the room's timer and
asks the other members for state, carrying the requester's id. -/
def handleRequestState (s : ServerState) (sid : String) (currentRoom : Option String)
    (now : Nat) : ServerState × List Emit :=
  match currentRoom with
  | none => (s, [])
  | some room =>
    let c := limiterConsume REQUEST_STATE_LIMIT s.requestLimiter sid now
    let s := { s with requestLimiter := c.2 }
    if !c.1 then (s, [])
    else (resetRoomTimeout s room now, [.stateRequested room sid sid])

/-- The SEND_STATE payload: recipient socket id plus opaque state. -/
structure SendStatePayload where
  targetId : String
  state : Option JsValue

/-- `handleSendState(socket, currentRoom, data)` at time `now`: requires a
current room, consumes a send-state token, verifies the target is a member
of the sender's room, validates the payload size, resets the room's timer
and delivers the state to the target only. -/
def handleSendState (s : ServerState) (sid : String) (currentRoom : Option String)
    (data : SendStatePayload) (now : Nat) : ServerState × List Emit :=
  match currentRoom with
  | none => (s, [])
  | some room =>
    let c := limiterConsume SEND_STATE_LIMIT s.sendLimiter sid now
    let s := { s with sendLimiter := c.2 }
    if !c.1 then (s, [])
    else
      match mapGet s.rooms room with
      | none => (s, [])
      | some ms =>
        if data.targetId ∉ ms then (s, [])
        else if !validateGameStateSize data.state then (s, [])
        else (resetRoomTimeout s room now, [.gameStateToSocket data.targetId data.state])

/-- `handleDisconnect(socket, currentRoom)`: leaves the current room, if
any, notifying the remaining members. -/
def handleDisconnect (s : ServerState) (sid : String) (currentRoom : Option String) :
    ServerState × List Emit :=
  match currentRoom with
  | some r => leaveCurrentRoom s sid r
  | none => (s, [])

/-- `disconnectRoom(roomName)` — the inactivity-timer callback: when the
room no longer exists it only drops the stale timer entry; otherwise it
emits ROOM_TIMEOUT to the whole room, force-disconnects every member and
removes the timer entry. -/
def disconnectRoom (s : ServerState) (name : String) : ServerState × List Emit :=
  match mapGet s.rooms name with
  | none => (clearRoomTimeout s name, [])
  | some ms =>
    ({ s with roomTimeouts := mapErase s.roomTimeouts name },
      .roomTimeout name :: ms.map .forceDisconnect)

/-! ### The event machine

Socket.IO's event loop handles each event to completion before the next
one, so the observable behaviours of the server are the sequential runs of
the handlers above.  The machine also tracks every connection's
`currentRoom` closure variable (as a map socket id → room name, absent
meaning `null`).  Timer fires are modelled as events that may occur at any
point, which over-approximates the real scheduler and is sound for the
safety invariants proved below. -/

/-- The `currentRoom` closure variables: socket id → current room. -/
abbrev CurMap := List (String × String)

/-- Machine state: server state plus the per-connection closure variables. -/
structure Machine where
  server : ServerState
  cur : CurMap

/-- The machine's initial state. -/
def initialMachine : Machine :=
  ⟨initialServer, []⟩

/-- An inbound event, carrying the wall-clock time (ms) where a handler
reads it. -/
inductive Event where
  | join (sid roomName : String) (now : Nat)
  | leave (sid : String)
  | gameState (sid : String) (state : Option JsValue) (now : Nat)
  | requestState (sid : String) (now : Nat)
  | sendState (sid : String) (data : SendStatePayload) (now : Nat)
  | disconnect (sid : String)
  | timerFire (roomName : String)

/-- `socket.disconnect(true)` cascade during `disconnectRoom`: each member's
disconnect handler runs synchronously (leaving its current room) and its
closure state is dropped. -/
def cascadeDisconnect : ServerState → CurMap → List String → ServerState × CurMap × List Emit
  | s, cur, [] => (s, cur, [])
  | s, cur, sid :: rest =>
    let hd := handleDisconnect s sid (mapGet cur sid)
    let out := cascadeDisconnect hd.1 (mapErase cur sid) rest
    (out.1, out.2.1, (Emit.forceDisconnect sid :: hd.2) ++ out.2.2)

/-- A room's inactivity timer fires: `disconnectRoom` runs, including the
synchronous disconnect cascade of the members, and finally removes the
timer entry. -/
def stepTimerFire (s : ServerState) (cur : CurMap) (name : String) :
    ServerState × CurMap × List Emit :=
  match mapGet s.rooms name with
  | none => (clearRoomTimeout s name, cur, [])
  | some ms =>
    let cas := cascadeDisconnect s cur ms
    ({ cas.1 with roomTimeouts := mapErase cas.1.roomTimeouts name },
      cas.2.1, .roomTimeout name :: cas.2.2)

/-- One machine step: dispatch the event to its handler and update the
affected connection's closure variable, returning the emissions. -/
def stepEmit (m : Machine) : Event → Machine × List Emit
  | .join sid roomName now =>
    let o := handleJoinRoom m.server sid roomName (mapGet m.cur sid) now
    (⟨o.state,
      match o.newCurrentRoom with
      | some r => mapSet m.cur sid r
      | none => mapErase m.cur sid⟩, o.emits)
  | .leave sid =>
    let o := handleLeaveRoom m.server sid (mapGet m.cur sid)
    (⟨o.1, mapErase m.cur sid⟩, o.2.2)
  | .gameState sid state now =>
    let o := handleGameState m.server sid (mapGet m.cur sid) state now
    (⟨o.1, m.cur⟩, o.2)
  | .requestState sid now =>
    let o := handleRequestState m.server sid (mapGet m.cur sid) now
    (⟨o.1, m.cur⟩, o.2)
  | .sendState sid data now =>
    let o := handleSendState m.server sid (mapGet m.cur sid) data now
    (⟨o.1, m.cur⟩, o.2)
  | .disconnect sid =>
    let o := handleDisconnect m.server sid (mapGet m.cur sid)
    (⟨o.1, mapErase m.cur sid⟩, o.2)
  | .timerFire roomName =>
    let o := stepTimerFire m.server m.cur roomName
    (⟨o.1, o.2.1⟩, o.2.2)

/-- One machine step, state only. -/
def stepM (m : Machine) (e : Event) : Machine :=
  (stepEmit m e).1

/-- Run the machine over a sequence of events. -/
def runM (m : Machine) (es : List Event) : Machine :=
  es.foldl stepM m

/-! ### Trace runners used to state temporal claims -/

/-- Run a sequence of `consume` calls for one key at the given times,
recording for each attempt its time and whether it was admitted. -/
def runLimiter (cfg : RateLimitConfig) (m : Limiter) (key : String) :
    List Nat → Limiter × List (Nat × Bool)
  | [] => (m, [])
  | t :: ts =>
    let c := limiterConsume cfg m key t
    let rest := runLimiter cfg c.2 key ts
    (rest.1, (t, c.1) :: rest.2)

/-- Number of admitted attempts whose time lies in the closed interval
`[lo, hi]`. -/
def admitsWithin (results : List (Nat × Bool)) (lo hi : Nat) : Nat :=
  (results.filter fun p => p.2 && decide (lo ≤ p.1) && decide (p.1 ≤ hi)).length

/-- Number of admitted attempts of a run. -/
def admitCount (results : List (Nat × Bool)) : Nat :=
  (results.filter fun p => p.2).length

/-- `n` successive `trackConnection` calls for one address: final counts and
whether every call was admitted. -/
def trackRepeat (m : ConnectionCounts) (ip : String) : Nat → ConnectionCounts × Bool
  | 0 => (m, true)
  | n + 1 =>
    let r := trackRepeat m ip n
    let t := trackConnection r.1 ip
    (t.2, r.2 && t.1)

/-- The reachable-state invariant of the event machine: every room holds at
most `MAX_PLAYERS_PER_ROOM` distinct members and is dropped when empty; the
`roomTimeouts` map never grows past `MAX_TOTAL_ROOMS`; every existing room
has a pending timer entry; and a connection's tracked `currentRoom` agrees
exactly with its adapter room membership. -/
structure MachineInv (m : Machine) : Prop where
  roomsBound : ∀ r ms, mapGet m.server.rooms r = some ms →
    ms.length ≤ MAX_PLAYERS_PER_ROOM ∧ ms.Nodup ∧ ms ≠ []
  timerBound : m.server.roomTimeouts.length ≤ MAX_TOTAL_ROOMS
  occupiedTimer : ∀ r ms, mapGet m.server.rooms r = some ms →
    ∃ d, mapGet m.server.roomTimeouts r = some d
  sync : ∀ sid r, mapGet m.cur sid = some r ↔
    ∃ ms, mapGet m.server.rooms r = some ms ∧ sid ∈ ms

/-! ### Association-list lemmas -/

theorem mapGet_mapErase {α : Type} (m : List (String × α)) (k k0 : String) :
    mapGet (mapErase m k) k0 = if k0 = k then none else mapGet m k0 := by
  induction m with
  | nil => simp [mapErase, mapGet]
  | cons hd t ih =>
    obtain ⟨a, b⟩ := hd
    by_cases hak : a = k
    · subst hak
      by_cases hk0 : k0 = a <;> simp_all [mapErase, mapGet, List.filter_cons]
    · by_cases hk0 : k0 = a <;> by_cases hkk : k0 = k <;>
        simp_all [mapErase, mapGet, List.filter_cons]

theorem mapGet_mapSet {α : Type} (m : List (String × α)) (k k0 : String) (v : α) :
    mapGet (mapSet m k v) k0 = if k0 = k then some v else mapGet m k0 := by
  simp only [mapSet, mapGet, mapGet_mapErase]
  by_cases hk0 : k0 = k <;> simp [hk0]

theorem length_mapErase_le {α : Type} (m : List (String × α)) (k : String) :
    (mapErase m k).length ≤ m.length :=
  List.length_filter_le _ m

theorem length_mapErase_lt {α : Type} {m : List (String × α)} {k : String} {v : α}
    (h : mapGet m k = some v) : (mapErase m k).length < m.length := by
  induction m with
  | nil => simp [mapGet] at h
  | cons hd t ih =>
    obtain ⟨a, b⟩ := hd
    by_cases hak : a = k
    · subst hak
      have h1 : mapErase ((a, b) :: t) a = mapErase t a := by
        simp [mapErase, List.filter_cons]
      rw [h1, List.length_cons]
      exact Nat.lt_succ_of_le (length_mapErase_le t a)
    · have hk : mapGet t k = some v := by
        simp only [mapGet] at h
        rw [if_neg (fun hk => hak hk.symm)] at h
        exact h
      have h1 : mapErase ((a, b) :: t) k = (a, b) :: mapErase t k := by
        simp [mapErase, List.filter_cons, hak]
      rw [h1, List.length_cons, List.length_cons]
      exact Nat.succ_lt_succ (ih hk)

theorem length_mapSet {α : Type} (m : List (String × α)) (k : String) (v : α) :
    (mapSet m k v).length = (mapErase m k).length + 1 := by
  simp [mapSet]

theorem length_mapSet_le {α : Type} (m : List (String × α)) (k : String) (v : α) :
    (mapSet m k v).length ≤ m.length + 1 := by
  rw [length_mapSet]
  exact Nat.succ_le_succ (length_mapErase_le m k)

theorem length_mapSet_of_get {α : Type} {m : List (String × α)} {k : String} {v0 : α}
    (h : mapGet m k = some v0) (v : α) : (mapSet m k v).length ≤ m.length := by
  rw [length_mapSet]
  exact Nat.succ_le_of_lt (length_mapErase_lt h)

/-! ### C1: send-state target membership -/

/-- C1.  A send-state event emits the state as a single game-state event to
`targetId` exactly when the sender has a current room, the send-state rate
limiter admits the attempt, the target is currently a member of that same
room and the payload passes the size check; in every other case — in
particular whenever `targetId` is not a member of the sender's room, or the
sender is in no room at all — nothing is emitted, so the state never
reaches the target. -/
theorem sendState_target_membership (s : ServerState) (sid : String) (cur : Option String)
    (data : SendStatePayload) (now : Nat) :
    ((handleSendState s sid cur data now).2 =
        [Emit.gameStateToSocket data.targetId data.state] ↔
      ∃ room ms, cur = some room ∧
        (limiterConsume SEND_STATE_LIMIT s.sendLimiter sid now).1 = true ∧
        mapGet s.rooms room = some ms ∧ data.targetId ∈ ms ∧
        validateGameStateSize data.state = true) ∧
    ((∀ room, cur = some room →
        ∀ ms, mapGet s.rooms room = some ms → data.targetId ∉ ms) →
      (handleSendState s sid cur data now).2 = []) := by
  cases cur with
  | none => simp [handleSendState]
  | some room =>
    cases hadm : (limiterConsume SEND_STATE_LIMIT s.sendLimiter sid now).1 with
    | false => simp [handleSendState, hadm]
    | true =>
      cases hms : mapGet s.rooms room with
      | none => simp [handleSendState, hadm, hms]
      | some ms =>
        by_cases hmem : data.targetId ∈ ms
        · by_cases hval : validateGameStateSize data.state
          · simp [handleSendState, hadm, hms, hmem, hval]
          · simp only [Bool.not_eq_true] at hval
            simp [handleSendState, hadm, hms, hmem, hval]
        · simp [handleSendState, hadm, hms, hmem]

/-- C1 witness: a sender in room "r" whose target is the other member gets
the state delivered; the hypothesis-shaped second conjunct drops the state
for a target outside the room. -/
theorem sendState_target_membership_witness :
    (handleSendState ⟨[("r", ["a", "b"])], [], [], [], [], []⟩ "a" (some "r")
        ⟨"b", some .null⟩ 0).2 = [Emit.gameStateToSocket "b" (some .null)] ∧
    (handleSendState ⟨[("r", ["a", "b"])], [], [], [], [], []⟩ "a" (some "r")
        ⟨"c", some .null⟩ 0).2 = [] := by
  constructor
  · exact (sendState_target_membership ⟨[("r", ["a", "b"])], [], [], [], [], []⟩ "a"
      (some "r") ⟨"b", some .null⟩ 0).1.mpr
      ⟨"r", ["a", "b"], rfl, by decide, by decide, by decide, by decide⟩
  · exact (sendState_target_membership ⟨[("r", ["a", "b"])], [], [], [], [], []⟩ "a"
      (some "r") ⟨"c", some .null⟩ 0).2
      (by intro room hr ms hms; cases hr; cases hms; decide)

/-! ### C3: join acknowledgment ownership semantics -/

/-- C3.  Whenever a join succeeds, its acknowledgment is computed from the
room occupancy observed at the time of the join: occupancy 0 (empty or
absent room) yields `isRoomOwner = true` and `playerCount = 1`; occupancy 1
yields `isRoomOwner = false` and `playerCount = 2`.  The statement
quantifies over every current room, so it covers a connection re-joining
the room it is already in. -/
theorem joinRoom_ownership (s : ServerState) (sid roomName : String)
    (cur : Option String) (now : Nat)
    (h : (handleJoinRoom s sid roomName cur now).response.success = true) :
    (getRoomPlayerCount s.rooms roomName = 0 →
      (handleJoinRoom s sid roomName cur now).response = ⟨true, none, some true, some 1⟩) ∧
    (getRoomPlayerCount s.rooms roomName = 1 →
      (handleJoinRoom s sid roomName cur now).response = ⟨true, none, some false, some 2⟩) := by
  cases hc : (limiterConsume JOIN_ROOM_LIMIT s.joinLimiter sid now).1 with
  | false => simp [handleJoinRoom, hc, joinFailure] at h
  | true =>
    cases hn : validRoomName roomName with
    | false => simp [handleJoinRoom, hc, hn, joinFailure] at h
    | true =>
      by_cases hcap : getRoomPlayerCount s.rooms roomName = 0 ∧
          MAX_TOTAL_ROOMS ≤ s.roomTimeouts.length
      · simp [handleJoinRoom, getTotalRoomCount, hc, hn, hcap, joinFailure] at h
      · by_cases hfull : MAX_PLAYERS_PER_ROOM ≤ getRoomPlayerCount s.rooms roomName
        · simp [handleJoinRoom, getTotalRoomCount, hc, hn, hcap, hfull, joinFailure] at h
        · constructor
          · intro h0
            have hlen : ¬MAX_TOTAL_ROOMS ≤ s.roomTimeouts.length := fun hl => hcap ⟨h0, hl⟩
            simp [handleJoinRoom, getTotalRoomCount, MAX_PLAYERS_PER_ROOM, hc, hn, h0, hlen]
          · intro h1
            simp [handleJoinRoom, getTotalRoomCount, MAX_PLAYERS_PER_ROOM, MAX_TOTAL_ROOMS,
              hc, hn, h1]

/-- C3 witness: a fresh join of socket "a" into the absent room "r" yields
owner/1; after it, socket "a" re-joining "r" (already its current room, so
it is the single existing member) is acknowledged with not-owner/2. -/
theorem joinRoom_ownership_witness :
    (handleJoinRoom initialServer "a" "r" none 0).response = ⟨true, none, some true, some 1⟩ ∧
    (handleJoinRoom (handleJoinRoom initialServer "a" "r" none 0).state "a" "r"
        (some "r") 1).response = ⟨true, none, some false, some 2⟩ := by
  constructor
  · exact (joinRoom_ownership initialServer "a" "r" none 0 (by decide)).1 (by decide)
  · exact (joinRoom_ownership (handleJoinRoom initialServer "a" "r" none 0).state "a" "r"
      (some "r") 1 (by decide)).2 (by decide)

/-! ### C8: failed joins are atomic -/

/-- C8.  Every join rejected by the handler leaves the adapter rooms, the
inactivity timers and the connection's tracked current room exactly as they
were, emits nothing, and carries one of the four specific reason strings in
its failure acknowledgment. -/
theorem joinRoom_failure_atomic (s : ServerState) (sid roomName : String)
    (cur : Option String) (now : Nat)
    (h : (handleJoinRoom s sid roomName cur now).response.success = false) :
    (handleJoinRoom s sid roomName cur now).state.rooms = s.rooms ∧
    (handleJoinRoom s sid roomName cur now).state.roomTimeouts = s.roomTimeouts ∧
    (handleJoinRoom s sid roomName cur now).newCurrentRoom = cur ∧
    (handleJoinRoom s sid roomName cur now).emits = [] ∧
    ((handleJoinRoom s sid roomName cur now).response.error =
        some "Too many requests. Please slow down." ∨
      (handleJoinRoom s sid roomName cur now).response.error = some "Invalid room name." ∨
      (handleJoinRoom s sid roomName cur now).response.error =
        some "Server is at capacity. Please try again later." ∨
      (handleJoinRoom s sid roomName cur now).response.error =
        some "Maximum 2 players allowed.") := by
  cases hc : (limiterConsume JOIN_ROOM_LIMIT s.joinLimiter sid now).1 with
  | false => simp [handleJoinRoom, hc, joinFailure]
  | true =>
    cases hn : validRoomName roomName with
    | false => simp [handleJoinRoom, hc, hn, joinFailure]
    | true =>
      by_cases hcap : getRoomPlayerCount s.rooms roomName = 0 ∧
          MAX_TOTAL_ROOMS ≤ s.roomTimeouts.length
      · simp [handleJoinRoom, getTotalRoomCount, hc, hn, hcap, joinFailure]
      · by_cases hfull : MAX_PLAYERS_PER_ROOM ≤ getRoomPlayerCount s.rooms roomName
        · simp [handleJoinRoom, getTotalRoomCount, hc, hn, hcap, hfull, joinFailure]
        · simp [handleJoinRoom, getTotalRoomCount, hc, hn, hcap, hfull] at h

/-- C8 witness: a join with an invalid room name fails and changes nothing. -/
theorem joinRoom_failure_atomic_witness :
    (handleJoinRoom initialServer "a" "bad name" none 0).state.rooms = [] ∧
    (handleJoinRoom initialServer "a" "bad name" none 0).newCurrentRoom = none ∧
    (handleJoinRoom initialServer "a" "bad name" none 0).emits = [] := by
  have h := joinRoom_failure_atomic initialServer "a" "bad name" none 0 (by decide)
  exact ⟨h.1.trans rfl, h.2.2.1, h.2.2.2.1⟩

/-! ### C10: the join rate-limit token is consumed before validation -/

/-- C10.  `handleJoinRoom` updates the join-room limiter storage with the
consumed token on every path — the consumption happens before room-name
validation and the capacity checks — so a join rejected for an invalid
name (or any later reason) still spends one unit of the connection's
5-per-10-seconds join budget: an unexpired record's consumed count grows by
one even though the acknowledgment reports failure. -/
theorem joinRoom_consumes_token_always (s : ServerState) (sid roomName : String)
    (cur : Option String) (now : Nat) :
    (handleJoinRoom s sid roomName cur now).state.joinLimiter =
      (limiterConsume JOIN_ROOM_LIMIT s.joinLimiter sid now).2 ∧
    (validRoomName roomName = false →
      (handleJoinRoom s sid roomName cur now).response.success = false) ∧
    (∀ r, mapGet s.joinLimiter sid = some r → now < r.expiresAt →
      mapGet (handleJoinRoom s sid roomName cur now).state.joinLimiter sid =
        some ⟨r.consumed + 1, r.expiresAt⟩) := by
  have hjl : (handleJoinRoom s sid roomName cur now).state.joinLimiter =
      (limiterConsume JOIN_ROOM_LIMIT s.joinLimiter sid now).2 := by
    cases hc : (limiterConsume JOIN_ROOM_LIMIT s.joinLimiter sid now).1 with
    | false => simp [handleJoinRoom, hc]
    | true =>
      cases hn : validRoomName roomName with
      | false => simp [handleJoinRoom, hc, hn]
      | true =>
        by_cases hcap : getRoomPlayerCount s.rooms roomName = 0 ∧
            MAX_TOTAL_ROOMS ≤ s.roomTimeouts.length
        · simp [handleJoinRoom, getTotalRoomCount, hc, hn, hcap]
        · by_cases hfull : MAX_PLAYERS_PER_ROOM ≤ getRoomPlayerCount s.rooms roomName
          · simp [handleJoinRoom, getTotalRoomCount, hc, hn, hcap, hfull]
          · cases cur with
            | none =>
              simp [handleJoinRoom, getTotalRoomCount, hc, hn, hcap, hfull, resetRoomTimeout]
            | some r0 =>
              simp [handleJoinRoom, getTotalRoomCount, hc, hn, hcap, hfull, resetRoomTimeout,
                leaveCurrentRoom, clearRoomTimeout, apply_ite]
  refine ⟨hjl, ?_, ?_⟩
  · intro hname
    cases hc : (limiterConsume JOIN_ROOM_LIMIT s.joinLimiter sid now).1 with
    | false => simp [handleJoinRoom, hc, joinFailure]
    | true => simp [handleJoinRoom, hc, hname, joinFailure]
  · intro r hr hnow
    rw [hjl]
    simp only [limiterConsume, hr]
    rw [if_neg (by omega)]
    simp [mapGet_mapSet]

/-- C10 witness: with a fresh token already consumed at time 0, a join with
an invalid name at time 1 is rejected yet raises the consumed count of the
unexpired record from 1 to 2. -/
theorem joinRoom_consumes_token_always_witness :
    validRoomName "bad name" = false ∧
    (handleJoinRoom ⟨[], [], [("a", ⟨1, 10000⟩)], [], [], []⟩ "a" "bad name" none 1).response.success
        = false ∧
    mapGet (handleJoinRoom ⟨[], [], [("a", ⟨1, 10000⟩)], [], [], []⟩ "a" "bad name" none
        1).state.joinLimiter "a" = some ⟨2, 10000⟩ := by
  refine ⟨by decide, ?_, ?_⟩
  · exact (joinRoom_consumes_token_always ⟨[], [], [("a", ⟨1, 10000⟩)], [], [], []⟩ "a"
      "bad name" none 1).2.1 (by decide)
  · exact (joinRoom_consumes_token_always ⟨[], [], [("a", ⟨1, 10000⟩)], [], [], []⟩ "a"
      "bad name" none 1).2.2 ⟨1, 10000⟩ (by decide) (by decide)

/-! ### C7: per-IP connection cap -/

/-- C7.  `trackConnection` refuses (leaving the counts untouched) exactly
when the address already has `MAX_CONNECTIONS_PER_IP = 100` open
connections and otherwise increments the address's count and admits;
`releaseConnection` decrements with floor zero, deleting the address entry
when the count reaches zero.  Consequently — as the connection middleware
calls `trackConnection` before any room handler is attached — an address
that opened 100 connections has its next attempt rejected at admission,
and after closing one connection exactly one further attempt is admitted. -/
theorem connection_tracking (m : ConnectionCounts) (ip : String) :
    (MAX_CONNECTIONS_PER_IP ≤ (mapGet m ip).getD 0 →
      trackConnection m ip = (false, m)) ∧
    ((mapGet m ip).getD 0 < MAX_CONNECTIONS_PER_IP →
      (trackConnection m ip).1 = true ∧
      mapGet (trackConnection m ip).2 ip = some ((mapGet m ip).getD 0 + 1)) ∧
    ((mapGet m ip).getD 0 ≤ 1 → mapGet (releaseConnection m ip) ip = none) ∧
    (∀ c, mapGet m ip = some c → 2 ≤ c →
      mapGet (releaseConnection m ip) ip = some (c - 1)) ∧
    (trackRepeat [] "A" MAX_CONNECTIONS_PER_IP).2 = true ∧
    (trackConnection (trackRepeat [] "A" MAX_CONNECTIONS_PER_IP).1 "A").1 = false ∧
    (trackConnection (releaseConnection (trackRepeat [] "A" MAX_CONNECTIONS_PER_IP).1 "A")
        "A").1 = true ∧
    (trackConnection
        (trackConnection (releaseConnection (trackRepeat [] "A" MAX_CONNECTIONS_PER_IP).1 "A")
          "A").2 "A").1 = false := by
  refine ⟨?_, ?_, ?_, ?_, by decide, by decide, by decide, by decide⟩
  · intro h
    simp only [trackConnection]
    rw [if_pos h]
  · intro h
    simp only [trackConnection]
    rw [if_neg (by omega)]
    exact ⟨rfl, by simp [mapGet_mapSet]⟩
  · intro h
    simp only [releaseConnection]
    rw [if_pos h]
    simp [mapGet_mapErase]
  · intro c hc h2
    simp only [releaseConnection, hc]
    rw [if_neg (by simpa [hc] using by omega)]
    simp [hc, mapGet_mapSet]

/-- C7 witness: an address at the cap is refused without mutation; a count
of 5 decrements to 4 on release; a count of 1 is erased. -/
theorem connection_tracking_witness :
    trackConnection [("B", 100)] "B" = (false, [("B", 100)]) ∧
    mapGet (releaseConnection [("B", 5)] "B") "B" = some 4 ∧
    mapGet (releaseConnection [("B", 1)] "B") "B" = none := by
  refine ⟨(connection_tracking [("B", 100)] "B").1 (by decide), ?_, ?_⟩
  · exact (connection_tracking [("B", 5)] "B").2.2.2.1 5 (by decide) (by decide)
  · exact (connection_tracking [("B", 1)] "B").2.2.1 (by decide)

/-! ### C5: the join-room limiter window -/

theorem admitCount_cons (t : Nat) (a : Bool) (rest : List (Nat × Bool)) :
    admitCount ((t, a) :: rest) = (if a then 1 else 0) + admitCount rest := by
  cases a
  · simp [admitCount, List.filter_cons]
  · simp [admitCount, List.filter_cons]
    omega

/-- Within one unexpired window record, the number of further admits is
bounded by the remaining budget of the record. -/
theorem runLimiter_admit_bound (cfg : RateLimitConfig) (key : String) :
    ∀ (ts : List Nat) (m : Limiter) (r : LimiterRecord), mapGet m key = some r →
      (∀ t ∈ ts, t < r.expiresAt) →
      admitCount (runLimiter cfg m key ts).2 ≤ cfg.points - r.consumed
  | [], m, r, _, _ => by simp [runLimiter, admitCount]
  | t :: ts, m, r, hr, hts => by
    have htw : ¬r.expiresAt ≤ t := by
      have := hts t (List.mem_cons_self t ts)
      omega
    have hstep : limiterConsume cfg m key t =
        (decide (r.consumed + 1 ≤ cfg.points), mapSet m key ⟨r.consumed + 1, r.expiresAt⟩) := by
      simp [limiterConsume, hr, htw]
    have hget : mapGet (mapSet m key ⟨r.consumed + 1, r.expiresAt⟩) key =
        some ⟨r.consumed + 1, r.expiresAt⟩ := by
      simp [mapGet_mapSet]
    have ih := runLimiter_admit_bound cfg key ts
      (mapSet m key ⟨r.consumed + 1, r.expiresAt⟩) ⟨r.consumed + 1, r.expiresAt⟩ hget
      (fun t0 ht0 => hts t0 (List.mem_cons_of_mem t ht0))
    simp only [runLimiter, hstep, admitCount_cons]
    simp at ih
    by_cases hp : r.consumed + 1 ≤ cfg.points
    · have hd : (decide (r.consumed + 1 ≤ cfg.points)) = true := decide_eq_true hp
      simp only [hd, if_true, Bool.false_eq_true]
      omega
    · have hd : (decide (r.consumed + 1 ≤ cfg.points)) = false := decide_eq_false hp
      simp only [hd, Bool.false_eq_true, if_false]
      omega

/-- C5 counterexample.  The join-room limiter is a fixed window anchored at
the first consume, not a rolling one: this concrete trace of eleven join
attempts by one connection contains nine admitted attempts inside the
single 10-second interval `[9000 ms, 19000 ms]` — the claimed bound of at
most 5 admits per 10-second-long window is violated as soon as a burst at
the end of one window is followed by a burst at the start of the next. -/
theorem joinLimiter_window_not_rolling :
    5 < admitsWithin (runLimiter JOIN_ROOM_LIMIT [] "s"
        [0, 9000, 9000, 9000, 9000, 9500, 10001, 10001, 10001, 10001, 10001]).2 9000 19000 ∧
    admitsWithin (runLimiter JOIN_ROOM_LIMIT [] "s"
        [0, 9000, 9000, 9000, 9000, 9500, 10001, 10001, 10001, 10001, 10001]).2 9000 19000 = 9 := by
  constructor
  · decide
  · decide

/-- C5 amended.  The join-room limiter admits at most 5 attempts per fixed
10-second window anchored at the key's first consume after expiry (so the
6th attempt inside such a window is rejected); a denied attempt does not
reset or extend the window, it only increments the consumed count; and an
attempt made after the window has expired is admitted again.  (At most 5
admits per arbitrarily placed 10-second interval does not hold, see the
counterexample.) -/
theorem joinLimiter_fixed_window (key : String) :
    (∀ (t0 : Nat) (rest : List Nat) (m : Limiter), mapGet m key = none →
      (∀ t ∈ rest, t < t0 + 10000) →
      admitCount (runLimiter JOIN_ROOM_LIMIT m key (t0 :: rest)).2 ≤ JOIN_ROOM_LIMIT.points) ∧
    (∀ (m : Limiter) (now : Nat) (r : LimiterRecord), mapGet m key = some r →
      now < r.expiresAt → JOIN_ROOM_LIMIT.points ≤ r.consumed →
      (limiterConsume JOIN_ROOM_LIMIT m key now).1 = false ∧
      mapGet (limiterConsume JOIN_ROOM_LIMIT m key now).2 key =
        some ⟨r.consumed + 1, r.expiresAt⟩) ∧
    (∀ (m : Limiter) (now : Nat) (r : LimiterRecord), mapGet m key = some r →
      r.expiresAt ≤ now → (limiterConsume JOIN_ROOM_LIMIT m key now).1 = true) := by
  refine ⟨?_, ?_, ?_⟩
  · intro t0 rest m hm hrest
    have hstep : limiterConsume JOIN_ROOM_LIMIT m key t0 =
        (true, mapSet m key ⟨1, t0 + 10000⟩) := by
      simp [limiterConsume, hm, JOIN_ROOM_LIMIT]
    have hget : mapGet (mapSet m key ⟨1, t0 + 10000⟩) key = some ⟨1, t0 + 10000⟩ := by
      simp [mapGet_mapSet]
    have hbound := runLimiter_admit_bound JOIN_ROOM_LIMIT key rest
      (mapSet m key ⟨1, t0 + 10000⟩) ⟨1, t0 + 10000⟩ hget hrest
    simp only [runLimiter, hstep, admitCount_cons, if_pos]
    simp only [JOIN_ROOM_LIMIT] at hbound ⊢
    omega
  · intro m now r hr hw hc
    have htw : ¬r.expiresAt ≤ now := by omega
    refine ⟨?_, ?_⟩
    · simp [limiterConsume, hr, htw]
      omega
    · simp [limiterConsume, hr, htw, mapGet_mapSet]
  · intro m now r hr hw
    simp [limiterConsume, hr, hw, JOIN_ROOM_LIMIT]

/-- C5 witness: five admits in a fresh window; with a full unexpired record
the sixth attempt is denied without touching the expiry; after the window
expires an attempt is admitted again. -/
theorem joinLimiter_fixed_window_witness :
    admitCount (runLimiter JOIN_ROOM_LIMIT [] "s" [0, 1, 2, 3, 4]).2 ≤ 5 ∧
    (limiterConsume JOIN_ROOM_LIMIT [("s", ⟨5, 10000⟩)] "s" 500).1 = false ∧
    mapGet (limiterConsume JOIN_ROOM_LIMIT [("s", ⟨5, 10000⟩)] "s" 500).2 "s" =
      some ⟨6, 10000⟩ ∧
    (limiterConsume JOIN_ROOM_LIMIT [("s", ⟨6, 10000⟩)] "s" 10000).1 = true := by
  refine ⟨?_, ?_, ?_, ?_⟩
  · exact (joinLimiter_fixed_window "s").1 0 [1, 2, 3, 4] [] (by decide) (by decide)
  · exact ((joinLimiter_fixed_window "s").2.1 [("s", ⟨5, 10000⟩)] 500 ⟨5, 10000⟩
      (by decide) (by decide) (by decide)).1
  · exact ((joinLimiter_fixed_window "s").2.1 [("s", ⟨5, 10000⟩)] 500 ⟨5, 10000⟩
      (by decide) (by decide) (by decide)).2
  · exact (joinLimiter_fixed_window "s").2.2 [("s", ⟨6, 10000⟩)] 10000 ⟨6, 10000⟩
      (by decide) (by decide)

/-! ### C4: payload size validation -/

theorem escapeChar_plain {c : Char} (h1 : c ≠ quoteChar) (h2 : c ≠ bslashChar)
    (h3 : 32 ≤ c.toNat) : escapeChar c = [c] := by
  unfold escapeChar
  rw [if_neg h1, if_neg h2, if_neg (by omega), if_neg (by omega), if_neg (by omega),
    if_neg (by omega), if_neg (by omega), if_neg (by omega)]

theorem escapeChars_replicate {c : Char} (h : escapeChar c = [c]) (n : Nat) :
    escapeChars (List.replicate n c) = List.replicate n c := by
  induction n with
  | zero => simp [escapeChars]
  | succ n ih => simp [List.replicate_succ, escapeChars, h, ih]

theorem utf16Length_cons (c : Char) (cs : List Char) :
    utf16Length (c :: cs) = (if 0x10000 ≤ c.toNat then 2 else 1) + utf16Length cs := by
  simp [utf16Length]

theorem utf16Length_append (a b : List Char) :
    utf16Length (a ++ b) = utf16Length a + utf16Length b := by
  simp [utf16Length]

theorem utf16Length_replicate (n : Nat) (c : Char) :
    utf16Length (List.replicate n c) = n * (if 0x10000 ≤ c.toNat then 2 else 1) := by
  simp [utf16Length, List.map_replicate, List.sum_replicate, smul_eq_mul]

theorem utf8Length_cons (c : Char) (cs : List Char) :
    utf8Length (c :: cs) = charUtf8Size c + utf8Length cs := by
  simp [utf8Length]

theorem utf8Length_append (a b : List Char) :
    utf8Length (a ++ b) = utf8Length a + utf8Length b := by
  simp [utf8Length]

theorem utf8Length_replicate (n : Nat) (c : Char) :
    utf8Length (List.replicate n c) = n * charUtf8Size c := by
  simp [utf8Length, List.map_replicate, List.sum_replicate, smul_eq_mul]

theorem jsonChars_str (s : String) :
    jsonChars (.str s) = quoteChar :: (escapeChars s.data ++ [quoteChar]) := by
  simp [jsonChars, jsonStringChars]

/-- C4 counterexample.  `validateGameStateSize` compares the JS string
length (UTF-16 code units) of the serialization, not its byte length: a
string of 60000 copies of the two-UTF-8-byte character U+00E9 serializes to
60002 code units — accepted — even though its UTF-8 byte length is 120002,
far above `MAX_GAME_STATE_SIZE = 102400` bytes, refuting "returns true iff
… the serialized byte length is at most 102400". -/
theorem validateSize_counts_code_units_not_bytes :
    validateGameStateSize
        (some (.str (String.mk (List.replicate 60000 (Char.ofNat 233))))) = true ∧
    MAX_GAME_STATE_SIZE <
      utf8Length (jsonChars (.str (String.mk (List.replicate 60000 (Char.ofNat 233))))) := by
  have hesc : escapeChar (Char.ofNat 233) = [Char.ofNat 233] := by decide
  have h1 : jsonChars (.str (String.mk (List.replicate 60000 (Char.ofNat 233)))) =
      quoteChar :: (List.replicate 60000 (Char.ofNat 233) ++ [quoteChar]) := by
    rw [jsonChars_str]
    show quoteChar :: (escapeChars (List.replicate 60000 (Char.ofNat 233)) ++ [quoteChar]) = _
    rw [escapeChars_replicate hesc]
  have hq : (Char.ofNat 34).toNat = 34 := by decide
  have he : (Char.ofNat 233).toNat = 233 := by decide
  constructor
  · simp only [validateGameStateSize, h1, utf16Length_cons, utf16Length_append,
      utf16Length_replicate]
    simp [quoteChar, hq, he, utf16Length, MAX_GAME_STATE_SIZE]
  · simp only [h1, utf8Length_cons, utf8Length_append, utf8Length_replicate]
    simp [quoteChar, hq, he, charUtf8Size, utf8Length, MAX_GAME_STATE_SIZE]

/-- C4 amended.  `validateGameStateSize(state)` returns true iff
serialization succeeds and the serialization's length in UTF-16 code units
(the JS string length) is at most `MAX_GAME_STATE_SIZE = 102400`; for
ASCII-only serializations this length coincides with the UTF-8 byte
length, so an ASCII state blob serializing to exactly 102400 bytes is
accepted and one serializing to 102401 bytes is rejected; a rejected or
unserializable payload is never relayed by the game-state handler (and a
serialization failure yields a rejection, never a crash). -/
theorem validateSize_spec :
    (∀ st : Option JsValue, validateGameStateSize st = true ↔
      ∃ v, st = some v ∧ utf16Length (jsonChars v) ≤ MAX_GAME_STATE_SIZE) ∧
    (∀ cs : List Char, (∀ c ∈ cs, c.toNat < 128) → utf8Length cs = utf16Length cs) ∧
    (∀ (s : ServerState) (sid room : String) (st : Option JsValue) (now : Nat),
      validateGameStateSize st = false →
      (handleGameState s sid (some room) st now).2 = []) ∧
    validateGameStateSize (some (.str (String.mk (List.replicate 102398 'a')))) = true ∧
    validateGameStateSize (some (.str (String.mk (List.replicate 102399 'a')))) = false ∧
    utf8Length (jsonChars (.str (String.mk (List.replicate 102398 'a')))) =
      MAX_GAME_STATE_SIZE ∧
    utf8Length (jsonChars (.str (String.mk (List.replicate 102399 'a')))) =
      MAX_GAME_STATE_SIZE + 1 := by
  have hesc : escapeChar 'a' = ['a'] := by decide
  have hstr : ∀ n : Nat, jsonChars (.str (String.mk (List.replicate n 'a'))) =
      quoteChar :: (List.replicate n 'a' ++ [quoteChar]) := by
    intro n
    rw [jsonChars_str]
    show quoteChar :: (escapeChars (List.replicate n 'a') ++ [quoteChar]) = _
    rw [escapeChars_replicate hesc]
  refine ⟨?_, ?_, ?_, ?_, ?_, ?_, ?_⟩
  · intro st
    cases st with
    | none => simp [validateGameStateSize]
    | some v => simp [validateGameStateSize]
  · intro cs hcs
    induction cs with
    | nil => simp [utf8Length, utf16Length]
    | cons c cs ih =>
      have hc := hcs c (List.mem_cons_self c cs)
      have h1 : charUtf8Size c = 1 := by
        unfold charUtf8Size
        rw [if_pos (by omega)]
      have h2 : ¬(0x10000 ≤ c.toNat) := by omega
      rw [utf8Length_cons, utf16Length_cons, h1, if_neg h2,
        ih (fun c0 hc0 => hcs c0 (List.mem_cons_of_mem c hc0))]
  · intro s sid room st now hval
    cases hadm : (limiterConsume GAME_STATE_LIMIT s.gameLimiter sid now).1 with
    | false => simp [handleGameState, hadm]
    | true => simp [handleGameState, hadm, hval]
  · simp only [validateGameStateSize, hstr 102398, utf16Length_cons, utf16Length_append,
      utf16Length_replicate]
    simp [quoteChar, show (Char.ofNat 34).toNat = 34 from by decide,
      show ('a').toNat = 97 from by decide, utf16Length, MAX_GAME_STATE_SIZE]
  · simp only [validateGameStateSize, hstr 102399, utf16Length_cons, utf16Length_append,
      utf16Length_replicate]
    simp [quoteChar, show (Char.ofNat 34).toNat = 34 from by decide,
      show ('a').toNat = 97 from by decide, utf16Length, MAX_GAME_STATE_SIZE]
  · simp only [hstr 102398, utf8Length_cons, utf8Length_append, utf8Length_replicate]
    simp [quoteChar, show (Char.ofNat 34).toNat = 34 from by decide,
      show ('a').toNat = 97 from by decide, charUtf8Size, utf8Length, MAX_GAME_STATE_SIZE]
  · simp only [hstr 102399, utf8Length_cons, utf8Length_append, utf8Length_replicate]
    simp [quoteChar, show (Char.ofNat 34).toNat = 34 from by decide,
      show ('a').toNat = 97 from by decide, charUtf8Size, utf8Length, MAX_GAME_STATE_SIZE]

/-- C4 witness: a null state is accepted; an ASCII character sequence has
equal byte and code-unit lengths; a rate-limited-free oversized payload is
not relayed by the game-state handler. -/
theorem validateSize_spec_witness :
    validateGameStateSize (some .null) = true ∧
    utf8Length ['a', 'b'] = utf16Length ['a', 'b'] ∧
    (handleGameState initialServer "a" (some "r") none 0).2 = [] := by
  refine ⟨?_, ?_, ?_⟩
  · exact (validateSize_spec.1 (some .null)).mpr ⟨.null, rfl, by decide⟩
  · exact validateSize_spec.2.1 ['a', 'b'] (by decide)
  · exact validateSize_spec.2.2.1 initialServer "a" "r" none 0 (by decide)

/-! ### C9: room inactivity timeout -/

/-- C9.  Room eviction semantics: rescheduling a room's timer replaces any
pending one with a deadline a full `ROOM_INACTIVITY_TIMEOUT_MS` from now
(leaving other rooms' timers alone); when the timer callback fires for an
existing room it emits room-timeout to the room, force-disconnects every
member and removes the timer entry; when it fires for a room that no
longer exists it only clears the stale timer entry and emits nothing; and
every qualifying activity — a successful join, a relayed game-state, a
request-state, a send-state — ends with the room's deadline reset to a
fresh full-length `now + ROOM_INACTIVITY_TIMEOUT_MS`. -/
theorem room_inactivity_timeout (s : ServerState) (name : String) (now : Nat) :
    (mapGet (resetRoomTimeout s name now).roomTimeouts name =
        some (now + ROOM_INACTIVITY_TIMEOUT_MS) ∧
      ∀ r, r ≠ name → mapGet (resetRoomTimeout s name now).roomTimeouts r =
        mapGet s.roomTimeouts r) ∧
    (∀ ms, mapGet s.rooms name = some ms →
      (disconnectRoom s name).2 = .roomTimeout name :: ms.map .forceDisconnect ∧
      mapGet (disconnectRoom s name).1.roomTimeouts name = none) ∧
    (mapGet s.rooms name = none →
      (disconnectRoom s name).1.rooms = s.rooms ∧
      (disconnectRoom s name).2 = [] ∧
      mapGet (disconnectRoom s name).1.roomTimeouts name = none ∧
      ∀ r, r ≠ name → mapGet (disconnectRoom s name).1.roomTimeouts r =
        mapGet s.roomTimeouts r) ∧
    (∀ sid cur, (handleJoinRoom s sid name cur now).response.success = true →
      mapGet (handleJoinRoom s sid name cur now).state.roomTimeouts name =
        some (now + ROOM_INACTIVITY_TIMEOUT_MS)) ∧
    (∀ sid st, (handleGameState s sid (some name) st now).2 ≠ [] →
      mapGet (handleGameState s sid (some name) st now).1.roomTimeouts name =
        some (now + ROOM_INACTIVITY_TIMEOUT_MS)) ∧
    (∀ sid, (handleRequestState s sid (some name) now).2 ≠ [] →
      mapGet (handleRequestState s sid (some name) now).1.roomTimeouts name =
        some (now + ROOM_INACTIVITY_TIMEOUT_MS)) ∧
    (∀ sid data, (handleSendState s sid (some name) data now).2 ≠ [] →
      mapGet (handleSendState s sid (some name) data now).1.roomTimeouts name =
        some (now + ROOM_INACTIVITY_TIMEOUT_MS)) := by
  refine ⟨⟨?_, ?_⟩, ?_, ?_, ?_, ?_, ?_, ?_⟩
  · simp [resetRoomTimeout, mapGet_mapSet]
  · intro r hr
    simp [resetRoomTimeout, mapGet_mapSet, hr]
  · intro ms hms
    simp [disconnectRoom, hms, mapGet_mapErase]
  · intro hnone
    simp [disconnectRoom, hnone, clearRoomTimeout, mapGet_mapErase]
    intro r hr h
    exact absurd h hr
  · intro sid cur h
    cases hc : (limiterConsume JOIN_ROOM_LIMIT s.joinLimiter sid now).1 with
    | false => simp [handleJoinRoom, hc, joinFailure] at h
    | true =>
      cases hn : validRoomName name with
      | false => simp [handleJoinRoom, hc, hn, joinFailure] at h
      | true =>
        by_cases hcap : getRoomPlayerCount s.rooms name = 0 ∧
            MAX_TOTAL_ROOMS ≤ s.roomTimeouts.length
        · simp [handleJoinRoom, getTotalRoomCount, hc, hn, hcap, joinFailure] at h
        · by_cases hfull : MAX_PLAYERS_PER_ROOM ≤ getRoomPlayerCount s.rooms name
          · simp [handleJoinRoom, getTotalRoomCount, hc, hn, hcap, hfull, joinFailure] at h
          · cases cur with
            | none =>
              simp [handleJoinRoom, getTotalRoomCount, hc, hn, hcap, hfull,
                resetRoomTimeout, mapGet_mapSet]
            | some r0 =>
              simp [handleJoinRoom, getTotalRoomCount, hc, hn, hcap, hfull,
                resetRoomTimeout, leaveCurrentRoom, clearRoomTimeout, apply_ite,
                mapGet_mapSet, mapGet_mapErase]
  · intro sid st h
    cases hc : (limiterConsume GAME_STATE_LIMIT s.gameLimiter sid now).1 with
    | false => simp [handleGameState, hc] at h
    | true =>
      cases hv : validateGameStateSize st with
      | false => simp [handleGameState, hc, hv] at h
      | true => simp [handleGameState, hc, hv, resetRoomTimeout, mapGet_mapSet]
  · intro sid h
    cases hc : (limiterConsume REQUEST_STATE_LIMIT s.requestLimiter sid now).1 with
    | false => simp [handleRequestState, hc] at h
    | true => simp [handleRequestState, hc, resetRoomTimeout, mapGet_mapSet]
  · intro sid data h
    cases hc : (limiterConsume SEND_STATE_LIMIT s.sendLimiter sid now).1 with
    | false => simp [handleSendState, hc] at h
    | true =>
      cases hms : mapGet s.rooms name with
      | none => simp [handleSendState, hc, hms] at h
      | some ms =>
        by_cases hmem : data.targetId ∈ ms
        · cases hv : validateGameStateSize data.state with
          | false => simp [handleSendState, hc, hms, hmem, hv] at h
          | true => simp [handleSendState, hc, hms, hmem, hv, resetRoomTimeout, mapGet_mapSet]
        · simp [handleSendState, hc, hms, hmem] at h

/-- C9 witness: with room "r" populated by sockets "a" and "b" and a pending
timer, the firing callback emits room-timeout plus two forced disconnects
and drops the timer entry; a game-state relay at time 5 reschedules the
deadline to 600005; a stale fire for an absent room only clears its entry. -/
theorem room_inactivity_timeout_witness :
    (disconnectRoom ⟨[("r", ["a", "b"])], [("r", 600000)], [], [], [], []⟩ "r").2 =
      [.roomTimeout "r", .forceDisconnect "a", .forceDisconnect "b"] ∧
    mapGet (handleRequestState ⟨[("r", ["a", "b"])], [("r", 600000)], [], [], [], []⟩ "a"
        (some "r") 5).1.roomTimeouts "r" = some 600005 ∧
    (disconnectRoom ⟨[], [("gone", 77)], [], [], [], []⟩ "gone").2 = [] := by
  refine ⟨?_, ?_, ?_⟩
  · exact ((room_inactivity_timeout ⟨[("r", ["a", "b"])], [("r", 600000)], [], [], [], []⟩
      "r" 0).2.1 ["a", "b"] (by decide)).1
  · have hne : (handleRequestState ⟨[("r", ["a", "b"])], [("r", 600000)], [], [], [], []⟩ "a"
        (some "r") 5).2 ≠ [] := by
      rw [show (handleRequestState ⟨[("r", ["a", "b"])], [("r", 600000)], [], [], [], []⟩ "a"
        (some "r") 5).2 = [Emit.stateRequested "r" "a" "a"] from rfl]
      exact List.cons_ne_nil _ _
    have h := (room_inactivity_timeout ⟨[("r", ["a", "b"])], [("r", 600000)], [], [], [], []⟩
      "r" 5).2.2.2.2.2.1 "a" hne
    simpa [ROOM_INACTIVITY_TIMEOUT_MS] using h
  · exact ((room_inactivity_timeout ⟨[], [("gone", 77)], [], [], [], []⟩ "gone" 0).2.2.1
      (by decide)).2.1

/-! ### Machine invariant machinery (C2, C6) -/

theorem mapGet_adapterJoin (rooms : Rooms) (name sid r0 : String) :
    mapGet (adapterJoin rooms name sid) r0 =
      if r0 = name then
        some (match mapGet rooms name with
          | none => [sid]
          | some ms => if sid ∈ ms then ms else ms ++ [sid])
      else mapGet rooms r0 := by
  cases h : mapGet rooms name with
  | none => by_cases h0 : r0 = name <;> simp [adapterJoin, h, h0, mapGet_mapSet]
  | some ms =>
    by_cases hmem : sid ∈ ms
    · by_cases h0 : r0 = name <;> simp [adapterJoin, h, hmem, h0]
    · by_cases h0 : r0 = name <;> simp [adapterJoin, h, hmem, h0, mapGet_mapSet]

theorem mapGet_adapterLeave (rooms : Rooms) (name sid r0 : String) :
    mapGet (adapterLeave rooms name sid) r0 =
      if r0 = name then
        (match mapGet rooms name with
          | none => none
          | some ms => if (ms.erase sid).isEmpty then none else some (ms.erase sid))
      else mapGet rooms r0 := by
  cases h : mapGet rooms name with
  | none => by_cases h0 : r0 = name <;> simp [adapterLeave, h, h0]
  | some ms =>
    by_cases he : (ms.erase sid).isEmpty
    · by_cases h0 : r0 = name <;> simp [adapterLeave, h, he, h0, mapGet_mapErase]
    · by_cases h0 : r0 = name <;> simp [adapterLeave, h, he, h0, mapGet_mapSet]

theorem leaveCurrentRoom_rooms (s : ServerState) (sid room : String) :
    (leaveCurrentRoom s sid room).1.rooms = adapterLeave s.rooms room sid := by
  simp [leaveCurrentRoom, clearRoomTimeout, apply_ite]

theorem leaveCurrentRoom_timeouts (s : ServerState) (sid room : String) :
    (leaveCurrentRoom s sid room).1.roomTimeouts =
      if getRoomPlayerCount (adapterLeave s.rooms room sid) room = 0 then
        mapErase s.roomTimeouts room
      else s.roomTimeouts := by
  by_cases h0 : getRoomPlayerCount (adapterLeave s.rooms room sid) room = 0
  · simp [leaveCurrentRoom, clearRoomTimeout, h0]
  · simp [leaveCurrentRoom, clearRoomTimeout, h0]

theorem machineInv_congr {s s' : ServerState} {cur cur' : CurMap}
    (h : MachineInv ⟨s, cur⟩) (hr : s'.rooms = s.rooms)
    (ht : s'.roomTimeouts = s.roomTimeouts)
    (hc : ∀ sid, mapGet cur' sid = mapGet cur sid) : MachineInv ⟨s', cur'⟩ := by
  constructor
  · intro r ms hm
    rw [show (Machine.mk s' cur').server = s' from rfl, hr] at hm
    exact h.roomsBound r ms hm
  · show s'.roomTimeouts.length ≤ MAX_TOTAL_ROOMS
    rw [ht]
    exact h.timerBound
  · intro r ms hm
    rw [show (Machine.mk s' cur').server = s' from rfl, hr] at hm
    show ∃ d, mapGet s'.roomTimeouts r = some d
    rw [ht]
    exact h.occupiedTimer r ms hm
  · intro sid r
    show mapGet cur' sid = some r ↔ ∃ ms, mapGet s'.rooms r = some ms ∧ sid ∈ ms
    rw [hc sid, hr]
    exact h.sync sid r

theorem isEmpty_true_iff (l : List String) : l.isEmpty = true ↔ l = [] := by
  cases l <;> simp

theorem getRoomPlayerCount_some {rooms : Rooms} {name : String} {ms : List String}
    (h : mapGet rooms name = some ms) : getRoomPlayerCount rooms name = ms.length := by
  simp [getRoomPlayerCount, h]

theorem getRoomPlayerCount_none {rooms : Rooms} {name : String}
    (h : mapGet rooms name = none) : getRoomPlayerCount rooms name = 0 := by
  simp [getRoomPlayerCount, h]

theorem mapGet_adapterLeave_self {rooms : Rooms} {name : String} {ms : List String}
    (h : mapGet rooms name = some ms) (sid : String) :
    mapGet (adapterLeave rooms name sid) name =
      if (ms.erase sid).isEmpty = true then none else some (ms.erase sid) := by
  rw [mapGet_adapterLeave, if_pos rfl, h]

theorem mapGet_adapterLeave_ne (rooms : Rooms) (name sid : String) {r0 : String}
    (h : r0 ≠ name) : mapGet (adapterLeave rooms name sid) r0 = mapGet rooms r0 := by
  rw [mapGet_adapterLeave, if_neg h]

theorem machineInv_leave {s : ServerState} {cur : CurMap} {sid room : String}
    (h : MachineInv ⟨s, cur⟩) (hc : mapGet cur sid = some room) :
    MachineInv ⟨(leaveCurrentRoom s sid room).1, mapErase cur sid⟩ := by
  obtain ⟨ms, hms, hmem⟩ := (h.sync sid room).mp hc
  replace hms : mapGet s.rooms room = some ms := hms
  obtain ⟨hlen, hnodup, hne⟩ := h.roomsBound room ms hms
  constructor
  · intro r ms' hm'
    have hm : mapGet (leaveCurrentRoom s sid room).1.rooms r = some ms' := hm'
    rw [leaveCurrentRoom_rooms] at hm
    by_cases h0 : r = room
    · subst h0
      rw [mapGet_adapterLeave_self hms sid] at hm
      by_cases he : (ms.erase sid).isEmpty = true
      · rw [if_pos he] at hm
        simp at hm
      · rw [if_neg he, Option.some.injEq] at hm
        subst hm
        refine ⟨le_trans (List.Sublist.length_le (List.erase_sublist sid ms)) hlen,
          hnodup.erase sid, fun hnil => he (by simp [hnil])⟩
    · rw [mapGet_adapterLeave_ne _ _ _ h0] at hm
      exact h.roomsBound r ms' hm
  · show (leaveCurrentRoom s sid room).1.roomTimeouts.length ≤ MAX_TOTAL_ROOMS
    rw [leaveCurrentRoom_timeouts]
    split
    · exact le_trans (length_mapErase_le _ _) h.timerBound
    · exact h.timerBound
  · intro r ms' hm'
    have hm : mapGet (leaveCurrentRoom s sid room).1.rooms r = some ms' := hm'
    show ∃ d, mapGet (leaveCurrentRoom s sid room).1.roomTimeouts r = some d
    rw [leaveCurrentRoom_rooms] at hm
    rw [leaveCurrentRoom_timeouts]
    by_cases h0 : r = room
    · subst h0
      rw [mapGet_adapterLeave_self hms sid] at hm
      by_cases he : (ms.erase sid).isEmpty = true
      · rw [if_pos he] at hm
        simp at hm
      · rw [if_neg he, Option.some.injEq] at hm
        have hget : mapGet (adapterLeave s.rooms r sid) r = some (ms.erase sid) := by
          rw [mapGet_adapterLeave_self hms sid, if_neg he]
        have hcount : ¬getRoomPlayerCount (adapterLeave s.rooms r sid) r = 0 := by
          rw [getRoomPlayerCount_some hget, List.length_eq_zero]
          exact fun hnil => he (by simp [hnil])
        rw [if_neg hcount]
        exact h.occupiedTimer r ms hms
    · rw [mapGet_adapterLeave_ne _ _ _ h0] at hm
      split
      · rw [mapGet_mapErase, if_neg h0]
        exact h.occupiedTimer r ms' hm
      · exact h.occupiedTimer r ms' hm
  · intro sid0 r
    show mapGet (mapErase cur sid) sid0 = some r ↔
      ∃ ms', mapGet (leaveCurrentRoom s sid room).1.rooms r = some ms' ∧ sid0 ∈ ms'
    rw [mapGet_mapErase, leaveCurrentRoom_rooms]
    by_cases h0 : sid0 = sid
    · subst h0
      rw [if_pos rfl]
      constructor
      · intro hcontra
        simp at hcontra
      · rintro ⟨ms', hm', hmem'⟩
        by_cases hr : r = room
        · subst hr
          rw [mapGet_adapterLeave_self hms sid0] at hm'
          by_cases he : (ms.erase sid0).isEmpty = true
          · rw [if_pos he] at hm'
            simp at hm'
          · rw [if_neg he, Option.some.injEq] at hm'
            subst hm'
            exact absurd ((hnodup.mem_erase_iff).mp hmem').1 (by simp)
        · rw [mapGet_adapterLeave_ne _ _ _ hr] at hm'
          have hq := (h.sync sid0 r).mpr ⟨ms', hm', hmem'⟩
          rw [hc, Option.some.injEq] at hq
          exact absurd hq.symm hr
    · rw [if_neg h0, h.sync sid0 r]
      by_cases hr : r = room
      · subst hr
        rw [mapGet_adapterLeave_self hms sid]
        constructor
        · rintro ⟨ms', hm', hmem'⟩
          replace hm' : mapGet s.rooms r = some ms' := hm'
          rw [hms, Option.some.injEq] at hm'
          subst hm'
          have hmem0 : sid0 ∈ ms.erase sid := (List.mem_erase_of_ne h0).mpr hmem'
          refine ⟨ms.erase sid, ?_, hmem0⟩
          rw [if_neg (fun he => by rw [(isEmpty_true_iff _).mp he] at hmem0; simp at hmem0)]
        · rintro ⟨ms', hm', hmem'⟩
          by_cases he : (ms.erase sid).isEmpty = true
          · rw [if_pos he] at hm'
            simp at hm'
          · rw [if_neg he, Option.some.injEq] at hm'
            subst hm'
            exact ⟨ms, hms, (List.mem_erase_of_ne h0).mp hmem'⟩
      · constructor
        · rintro ⟨ms', hm', hmem'⟩
          refine ⟨ms', ?_, hmem'⟩
          rw [mapGet_adapterLeave_ne _ _ _ hr]
          exact hm'
        · rintro ⟨ms', hm', hmem'⟩
          rw [mapGet_adapterLeave_ne _ _ _ hr] at hm'
          exact ⟨ms', hm', hmem'⟩

theorem machineInv_reset {s : ServerState} {cur : CurMap} {room : String}
    (h : MachineInv ⟨s, cur⟩) (hd : ∃ d, mapGet s.roomTimeouts room = some d) (now : Nat) :
    MachineInv ⟨resetRoomTimeout s room now, cur⟩ := by
  obtain ⟨d, hd⟩ := hd
  constructor
  · intro r ms hm
    exact h.roomsBound r ms hm
  · show (mapSet s.roomTimeouts room (now + ROOM_INACTIVITY_TIMEOUT_MS)).length ≤
      MAX_TOTAL_ROOMS
    exact le_trans (length_mapSet_of_get hd _) h.timerBound
  · intro r ms hm
    show ∃ d0, mapGet (mapSet s.roomTimeouts room (now + ROOM_INACTIVITY_TIMEOUT_MS)) r =
      some d0
    rw [mapGet_mapSet]
    by_cases h0 : r = room
    · exact ⟨now + ROOM_INACTIVITY_TIMEOUT_MS, by rw [if_pos h0]⟩
    · rw [if_neg h0]
      exact h.occupiedTimer r ms hm
  · exact h.sync

theorem mapErase_idem {α : Type} (m : List (String × α)) (k : String) :
    mapErase (mapErase m k) k = mapErase m k := by
  simp [mapErase, List.filter_filter]

theorem mapSet_mapErase_self {α : Type} (m : List (String × α)) (k : String) (v : α) :
    mapSet (mapErase m k) k v = mapSet m k v := by
  simp [mapSet, mapErase_idem]

theorem mapGet_curUpdate {cur : CurMap} {sid : String} {v : Option String}
    (hv : mapGet cur sid = v) (sid0 : String) :
    mapGet (match v with
      | some r => mapSet cur sid r
      | none => mapErase cur sid) sid0 = mapGet cur sid0 := by
  cases v with
  | none =>
    rw [mapGet_mapErase]
    by_cases h0 : sid0 = sid
    · subst h0
      rw [if_pos rfl, hv]
    · rw [if_neg h0]
  | some r =>
    rw [mapGet_mapSet]
    by_cases h0 : sid0 = sid
    · subst h0
      rw [if_pos rfl, hv]
    · rw [if_neg h0]

theorem mapGet_adapterJoin_self_none {rooms : Rooms} {name : String}
    (h : mapGet rooms name = none) (sid : String) :
    mapGet (adapterJoin rooms name sid) name = some [sid] := by
  rw [mapGet_adapterJoin, if_pos rfl, h]

theorem mapGet_adapterJoin_self_some {rooms : Rooms} {name : String} {ms : List String}
    (h : mapGet rooms name = some ms) (sid : String) :
    mapGet (adapterJoin rooms name sid) name =
      some (if sid ∈ ms then ms else ms ++ [sid]) := by
  rw [mapGet_adapterJoin, if_pos rfl, h]

theorem mapGet_adapterJoin_ne (rooms : Rooms) (name sid : String) {r0 : String}
    (h : r0 ≠ name) : mapGet (adapterJoin rooms name sid) r0 = mapGet rooms r0 := by
  rw [mapGet_adapterJoin, if_neg h]

theorem machineInv_join_free {s : ServerState} {cur : CurMap} {sid name : String} (now : Nat)
    (h : MachineInv ⟨s, cur⟩) (hnotin : mapGet cur sid = none)
    (hpc : getRoomPlayerCount s.rooms name < MAX_PLAYERS_PER_ROOM)
    (hcap2 : getRoomPlayerCount s.rooms name = 0 →
      s.roomTimeouts.length < MAX_TOTAL_ROOMS) :
    MachineInv ⟨resetRoomTimeout { s with rooms := adapterJoin s.rooms name sid } name now,
      mapSet cur sid name⟩ := by
  have hsidfree : ∀ r ms, mapGet s.rooms r = some ms → sid ∉ ms := by
    intro r ms hm hmem
    have hq := (h.sync sid r).mpr ⟨ms, hm, hmem⟩
    rw [hnotin] at hq
    simp at hq
  have hjoin : ∃ newms, mapGet (adapterJoin s.rooms name sid) name = some newms ∧
      sid ∈ newms ∧ newms.Nodup ∧ newms.length ≤ MAX_PLAYERS_PER_ROOM ∧
      (∀ sid0, sid0 ≠ sid →
        (sid0 ∈ newms ↔ ∃ ms, mapGet s.rooms name = some ms ∧ sid0 ∈ ms)) := by
    cases hms : mapGet s.rooms name with
    | none =>
      refine ⟨[sid], mapGet_adapterJoin_self_none hms sid, by simp, by simp, ?_, ?_⟩
      · simp [MAX_PLAYERS_PER_ROOM]
      · intro sid0 h0
        simp [h0]
    | some ms =>
      have hnot : sid ∉ ms := hsidfree name ms hms
      obtain ⟨hl, hn, _⟩ := h.roomsBound name ms hms
      have hpc2 : ms.length < MAX_PLAYERS_PER_ROOM := by
        rw [← getRoomPlayerCount_some hms]
        exact hpc
      refine ⟨ms ++ [sid], ?_, by simp, ?_, ?_, ?_⟩
      · rw [mapGet_adapterJoin_self_some hms sid, if_neg hnot]
      · rw [← List.concat_eq_append]
        exact hn.concat hnot
      · rw [List.length_append]
        simp
        omega
      · intro sid0 h0
        rw [List.mem_append]
        constructor
        · rintro (hin | hin)
          · exact ⟨ms, rfl, hin⟩
          · simp at hin
            exact absurd hin h0
        · rintro ⟨ms0, hm0, hin⟩
          rw [Option.some.injEq] at hm0
          subst hm0
          exact Or.inl hin
  obtain ⟨newms, hjget, hjmem, hjnodup, hjlen, hjold⟩ := hjoin
  constructor
  · intro r ms' hm'
    have hm : mapGet (adapterJoin s.rooms name sid) r = some ms' := hm'
    by_cases h0 : r = name
    · subst h0
      rw [hjget, Option.some.injEq] at hm
      subst hm
      exact ⟨hjlen, hjnodup, by rintro rfl; simp at hjmem⟩
    · rw [mapGet_adapterJoin_ne _ _ _ h0] at hm
      exact h.roomsBound r ms' hm
  · show (mapSet s.roomTimeouts name (now + ROOM_INACTIVITY_TIMEOUT_MS)).length ≤
      MAX_TOTAL_ROOMS
    cases hms : mapGet s.rooms name with
    | none =>
      have hlen : s.roomTimeouts.length < MAX_TOTAL_ROOMS :=
        hcap2 (getRoomPlayerCount_none hms)
      exact le_trans (length_mapSet_le _ _ _) hlen
    | some ms =>
      obtain ⟨d, hd⟩ := h.occupiedTimer name ms hms
      exact le_trans (length_mapSet_of_get hd _) h.timerBound
  · intro r ms' hm'
    have hm : mapGet (adapterJoin s.rooms name sid) r = some ms' := hm'
    show ∃ d0, mapGet (mapSet s.roomTimeouts name (now + ROOM_INACTIVITY_TIMEOUT_MS)) r =
      some d0
    rw [mapGet_mapSet]
    by_cases h0 : r = name
    · exact ⟨now + ROOM_INACTIVITY_TIMEOUT_MS, by rw [if_pos h0]⟩
    · rw [if_neg h0]
      rw [mapGet_adapterJoin_ne _ _ _ h0] at hm
      exact h.occupiedTimer r ms' hm
  · intro sid0 r
    show mapGet (mapSet cur sid name) sid0 = some r ↔
      ∃ ms', mapGet (adapterJoin s.rooms name sid) r = some ms' ∧ sid0 ∈ ms'
    rw [mapGet_mapSet]
    by_cases h0 : sid0 = sid
    · rw [if_pos h0]
      subst h0
      constructor
      · intro hr
        rw [Option.some.injEq] at hr
        subst hr
        exact ⟨newms, hjget, hjmem⟩
      · rintro ⟨ms', hm', hmem'⟩
        by_cases hr : r = name
        · rw [hr]
        · rw [mapGet_adapterJoin_ne _ _ _ hr] at hm'
          exact absurd (hsidfree r ms' hm') (by simp [hmem'])
    · rw [if_neg h0, h.sync sid0 r]
      by_cases hr : r = name
      · subst hr
        rw [hjget]
        constructor
        · rintro ⟨ms', hm', hmem'⟩
          exact ⟨newms, rfl, (hjold sid0 h0).mpr ⟨ms', hm', hmem'⟩⟩
        · rintro ⟨ms', hm', hmem'⟩
          rw [Option.some.injEq] at hm'
          subst hm'
          exact (hjold sid0 h0).mp hmem'
      · constructor
        · rintro ⟨ms', hm', hmem'⟩
          refine ⟨ms', ?_, hmem'⟩
          rw [mapGet_adapterJoin_ne _ _ _ hr]
          exact hm'
        · rintro ⟨ms', hm', hmem'⟩
          rw [mapGet_adapterJoin_ne _ _ _ hr] at hm'
          exact ⟨ms', hm', hmem'⟩

theorem adapterLeave_of_get {rooms : Rooms} {name : String} {ms : List String}
    (h : mapGet rooms name = some ms) (sid : String) :
    adapterLeave rooms name sid =
      if (ms.erase sid).isEmpty = true then mapErase rooms name
      else mapSet rooms name (ms.erase sid) := by
  unfold adapterLeave
  rw [h]

/-- Effect of the disconnect cascade `disconnectRoom` triggers: the evicted
room disappears from the adapter and from the timer map, every other room
and timer entry is untouched, the timer map does not grow, and exactly the
evicted members' closure variables are cleared. -/
theorem cascadeDisconnect_spec (room : String) :
    ∀ (ms : List String) (s : ServerState) (cur : CurMap),
      mapGet s.rooms room = some ms → ms ≠ [] → ms.Nodup →
      (∀ sid ∈ ms, mapGet cur sid = some room) →
      (∀ r0, mapGet (cascadeDisconnect s cur ms).1.rooms r0 =
        if r0 = room then none else mapGet s.rooms r0) ∧
      (∀ r0, mapGet (cascadeDisconnect s cur ms).1.roomTimeouts r0 =
        if r0 = room then none else mapGet s.roomTimeouts r0) ∧
      (∀ sid0, mapGet (cascadeDisconnect s cur ms).2.1 sid0 =
        if sid0 ∈ ms then none else mapGet cur sid0) ∧
      (cascadeDisconnect s cur ms).1.roomTimeouts.length ≤ s.roomTimeouts.length
  | [] => fun s cur hms hne => absurd rfl hne
  | sid :: rest => fun s cur hms hne hnodup hcur => by
    have hcs : mapGet cur sid = some room := hcur sid (List.mem_cons_self sid rest)
    have h1 : (cascadeDisconnect s cur (sid :: rest)).1 =
        (cascadeDisconnect (leaveCurrentRoom s sid room).1 (mapErase cur sid) rest).1 := by
      simp only [cascadeDisconnect, hcs, handleDisconnect]
    have h2 : (cascadeDisconnect s cur (sid :: rest)).2.1 =
        (cascadeDisconnect (leaveCurrentRoom s sid room).1 (mapErase cur sid) rest).2.1 := by
      simp only [cascadeDisconnect, hcs, handleDisconnect]
    have hsidnotin : sid ∉ rest := (List.nodup_cons.mp hnodup).1
    have herase : (sid :: rest).erase sid = rest := List.erase_cons_head sid rest
    cases hrest : rest with
    | nil =>
      subst hrest
      have hA : adapterLeave s.rooms room sid = mapErase s.rooms room := by
        rw [adapterLeave_of_get hms sid]
        simp
      have hcount : getRoomPlayerCount (adapterLeave s.rooms room sid) room = 0 := by
        rw [hA]
        exact getRoomPlayerCount_none (by rw [mapGet_mapErase, if_pos rfl])
      have hlr : (leaveCurrentRoom s sid room).1.rooms = mapErase s.rooms room := by
        rw [leaveCurrentRoom_rooms, hA]
      have hlt : (leaveCurrentRoom s sid room).1.roomTimeouts =
          mapErase s.roomTimeouts room := by
        rw [leaveCurrentRoom_timeouts, if_pos hcount]
      have hnilcas : ∀ (X : ServerState) (Y : CurMap), cascadeDisconnect X Y [] = (X, Y, []) :=
        fun X Y => rfl
      refine ⟨?_, ?_, ?_, ?_⟩
      · intro r0
        rw [h1, hnilcas, hlr, mapGet_mapErase]
      · intro r0
        rw [h1, hnilcas, hlt, mapGet_mapErase]
      · intro sid0
        rw [h2, hnilcas, mapGet_mapErase]
        by_cases h0 : sid0 = sid
        · rw [if_pos h0, if_pos (by simp [h0])]
        · rw [if_neg h0, if_neg (by simp [h0])]
      · rw [h1, hnilcas, hlt]
        exact length_mapErase_le _ _
    | cons b bs =>
      rw [← hrest]
      have hrne : rest ≠ [] := by rw [hrest]; simp
      have hiE : rest.isEmpty = false := by rw [hrest]; rfl
      have hA : adapterLeave s.rooms room sid = mapSet s.rooms room rest := by
        rw [adapterLeave_of_get hms sid, herase, hiE]
        simp
      have hcount : ¬getRoomPlayerCount (adapterLeave s.rooms room sid) room = 0 := by
        rw [hA, getRoomPlayerCount_some (by rw [mapGet_mapSet, if_pos rfl])]
        rw [List.length_eq_zero]
        exact hrne
      have hlr : (leaveCurrentRoom s sid room).1.rooms = mapSet s.rooms room rest := by
        rw [leaveCurrentRoom_rooms, hA]
      have hlt : (leaveCurrentRoom s sid room).1.roomTimeouts = s.roomTimeouts := by
        rw [leaveCurrentRoom_timeouts, if_neg hcount]
      have ih := cascadeDisconnect_spec room rest (leaveCurrentRoom s sid room).1
        (mapErase cur sid)
        (by rw [hlr, mapGet_mapSet, if_pos rfl])
        hrne (List.nodup_cons.mp hnodup).2
        (by
          intro sid1 hmem1
          have hne1 : sid1 ≠ sid := fun hq => hsidnotin (hq ▸ hmem1)
          rw [mapGet_mapErase, if_neg hne1]
          exact hcur sid1 (List.mem_cons_of_mem sid hmem1))
      obtain ⟨ihrooms, ihtimers, ihcur, ihlen⟩ := ih
      refine ⟨?_, ?_, ?_, ?_⟩
      · intro r0
        rw [h1, ihrooms r0]
        by_cases h0 : r0 = room
        · rw [if_pos h0, if_pos h0]
        · rw [if_neg h0, if_neg h0, hlr, mapGet_mapSet, if_neg h0]
      · intro r0
        rw [h1, ihtimers r0]
        by_cases h0 : r0 = room
        · rw [if_pos h0, if_pos h0]
        · rw [if_neg h0, if_neg h0, hlt]
      · intro sid0
        rw [h2, ihcur sid0]
        by_cases hin : sid0 ∈ rest
        · rw [if_pos hin, if_pos (List.mem_cons_of_mem sid hin)]
        · by_cases h0 : sid0 = sid
          · rw [if_neg hin, if_pos (by rw [h0]; exact List.mem_cons_self sid rest),
              mapGet_mapErase, if_pos h0]
          · rw [if_neg hin, if_neg (by simp [h0, hin]), mapGet_mapErase, if_neg h0]
      · rw [h1]
        exact le_trans ihlen (le_of_eq (by rw [hlt]))

theorem mapGet_mapErase_of_none {cur : CurMap} {sid : String}
    (h : mapGet cur sid = none) (sid0 : String) :
    mapGet (mapErase cur sid) sid0 = mapGet cur sid0 := by
  rw [mapGet_mapErase]
  by_cases h0 : sid0 = sid
  · rw [if_pos h0, h0, h]
  · rw [if_neg h0]

theorem mapGet_mapSet_of_get {cur : CurMap} {sid r : String}
    (h : mapGet cur sid = some r) (sid0 : String) :
    mapGet (mapSet cur sid r) sid0 = mapGet cur sid0 := by
  rw [mapGet_mapSet]
  by_cases h0 : sid0 = sid
  · rw [if_pos h0, h0, h]
  · rw [if_neg h0]

theorem getRoomPlayerCount_adapterLeave_le (rooms : Rooms) (room sid name : String) :
    getRoomPlayerCount (adapterLeave rooms room sid) name ≤
      getRoomPlayerCount rooms name := by
  by_cases h0 : name = room
  · subst h0
    cases hms : mapGet rooms name with
    | none =>
      unfold adapterLeave
      rw [hms]
    | some ms =>
      rw [getRoomPlayerCount_some hms]
      by_cases he : (ms.erase sid).isEmpty = true
      · have hget : mapGet (adapterLeave rooms name sid) name = none := by
          rw [mapGet_adapterLeave_self hms sid, if_pos he]
        rw [getRoomPlayerCount_none hget]
        exact Nat.zero_le _
      · have hget : mapGet (adapterLeave rooms name sid) name = some (ms.erase sid) := by
          rw [mapGet_adapterLeave_self hms sid, if_neg he]
        rw [getRoomPlayerCount_some hget]
        exact List.Sublist.length_le (List.erase_sublist sid ms)
  · have hget : mapGet (adapterLeave rooms room sid) name = mapGet rooms name :=
      mapGet_adapterLeave_ne _ _ _ h0
    simp [getRoomPlayerCount, hget]

theorem machineInv_step (m : Machine) (e : Event) (h : MachineInv m) :
    MachineInv (stepM m e) := by
  obtain ⟨s, cur⟩ := m
  cases e with
  | leave sid =>
    cases hcur : mapGet cur sid with
    | none =>
      have hstep : stepM ⟨s, cur⟩ (.leave sid) = ⟨s, mapErase cur sid⟩ := by
        simp [stepM, stepEmit, handleLeaveRoom, hcur]
      rw [hstep]
      exact machineInv_congr h rfl rfl (mapGet_mapErase_of_none hcur)
    | some room =>
      have hstep : stepM ⟨s, cur⟩ (.leave sid) =
          ⟨(leaveCurrentRoom s sid room).1, mapErase cur sid⟩ := by
        simp [stepM, stepEmit, handleLeaveRoom, hcur]
      rw [hstep]
      exact machineInv_leave h hcur
  | disconnect sid =>
    cases hcur : mapGet cur sid with
    | none =>
      have hstep : stepM ⟨s, cur⟩ (.disconnect sid) = ⟨s, mapErase cur sid⟩ := by
        simp [stepM, stepEmit, handleDisconnect, hcur]
      rw [hstep]
      exact machineInv_congr h rfl rfl (mapGet_mapErase_of_none hcur)
    | some room =>
      have hstep : stepM ⟨s, cur⟩ (.disconnect sid) =
          ⟨(leaveCurrentRoom s sid room).1, mapErase cur sid⟩ := by
        simp [stepM, stepEmit, handleDisconnect, hcur]
      rw [hstep]
      exact machineInv_leave h hcur
  | gameState sid st now =>
    cases hcur : mapGet cur sid with
    | none =>
      have hstep : stepM ⟨s, cur⟩ (.gameState sid st now) = ⟨s, cur⟩ := by
        simp [stepM, stepEmit, handleGameState, hcur]
      rw [hstep]
      exact h
    | some room =>
      have hinv0 : MachineInv ⟨{ s with
          gameLimiter := (limiterConsume GAME_STATE_LIMIT s.gameLimiter sid now).2 }, cur⟩ :=
        machineInv_congr h rfl rfl (fun _ => rfl)
      cases hc : (limiterConsume GAME_STATE_LIMIT s.gameLimiter sid now).1 with
      | false =>
        have hstep : stepM ⟨s, cur⟩ (.gameState sid st now) = ⟨{ s with
            gameLimiter := (limiterConsume GAME_STATE_LIMIT s.gameLimiter sid now).2 },
            cur⟩ := by
          simp [stepM, stepEmit, handleGameState, hcur, hc]
        rw [hstep]
        exact hinv0
      | true =>
        cases hv : validateGameStateSize st with
        | false =>
          have hstep : stepM ⟨s, cur⟩ (.gameState sid st now) = ⟨{ s with
              gameLimiter := (limiterConsume GAME_STATE_LIMIT s.gameLimiter sid now).2 },
              cur⟩ := by
            simp [stepM, stepEmit, handleGameState, hcur, hc, hv]
          rw [hstep]
          exact hinv0
        | true =>
          have hstep : stepM ⟨s, cur⟩ (.gameState sid st now) =
              ⟨resetRoomTimeout { s with
                gameLimiter := (limiterConsume GAME_STATE_LIMIT s.gameLimiter sid now).2 }
                room now, cur⟩ := by
            simp [stepM, stepEmit, handleGameState, hcur, hc, hv]
          rw [hstep]
          obtain ⟨ms, hms, hmem⟩ := (h.sync sid room).mp hcur
          exact machineInv_reset hinv0 (h.occupiedTimer room ms hms) now
  | requestState sid now =>
    cases hcur : mapGet cur sid with
    | none =>
      have hstep : stepM ⟨s, cur⟩ (.requestState sid now) = ⟨s, cur⟩ := by
        simp [stepM, stepEmit, handleRequestState, hcur]
      rw [hstep]
      exact h
    | some room =>
      have hinv0 : MachineInv ⟨{ s with
          requestLimiter :=
            (limiterConsume REQUEST_STATE_LIMIT s.requestLimiter sid now).2 }, cur⟩ :=
        machineInv_congr h rfl rfl (fun _ => rfl)
      cases hc : (limiterConsume REQUEST_STATE_LIMIT s.requestLimiter sid now).1 with
      | false =>
        have hstep : stepM ⟨s, cur⟩ (.requestState sid now) = ⟨{ s with
            requestLimiter :=
              (limiterConsume REQUEST_STATE_LIMIT s.requestLimiter sid now).2 }, cur⟩ := by
          simp [stepM, stepEmit, handleRequestState, hcur, hc]
        rw [hstep]
        exact hinv0
      | true =>
        have hstep : stepM ⟨s, cur⟩ (.requestState sid now) =
            ⟨resetRoomTimeout { s with
              requestLimiter :=
                (limiterConsume REQUEST_STATE_LIMIT s.requestLimiter sid now).2 }
              room now, cur⟩ := by
          simp [stepM, stepEmit, handleRequestState, hcur, hc]
        rw [hstep]
        obtain ⟨ms, hms, hmem⟩ := (h.sync sid room).mp hcur
        exact machineInv_reset hinv0 (h.occupiedTimer room ms hms) now
  | sendState sid data now =>
    cases hcur : mapGet cur sid with
    | none =>
      have hstep : stepM ⟨s, cur⟩ (.sendState sid data now) = ⟨s, cur⟩ := by
        simp [stepM, stepEmit, handleSendState, hcur]
      rw [hstep]
      exact h
    | some room =>
      have hinv0 : MachineInv ⟨{ s with
          sendLimiter := (limiterConsume SEND_STATE_LIMIT s.sendLimiter sid now).2 }, cur⟩ :=
        machineInv_congr h rfl rfl (fun _ => rfl)
      cases hc : (limiterConsume SEND_STATE_LIMIT s.sendLimiter sid now).1 with
      | false =>
        have hstep : stepM ⟨s, cur⟩ (.sendState sid data now) = ⟨{ s with
            sendLimiter := (limiterConsume SEND_STATE_LIMIT s.sendLimiter sid now).2 },
            cur⟩ := by
          simp [stepM, stepEmit, handleSendState, hcur, hc]
        rw [hstep]
        exact hinv0
      | true =>
        cases hms0 : mapGet s.rooms room with
        | none =>
          have hstep : stepM ⟨s, cur⟩ (.sendState sid data now) = ⟨{ s with
              sendLimiter := (limiterConsume SEND_STATE_LIMIT s.sendLimiter sid now).2 },
              cur⟩ := by
            simp [stepM, stepEmit, handleSendState, hcur, hc, hms0]
          rw [hstep]
          exact hinv0
        | some ms =>
          by_cases hmem : data.targetId ∈ ms
          · cases hv : validateGameStateSize data.state with
            | false =>
              have hstep : stepM ⟨s, cur⟩ (.sendState sid data now) = ⟨{ s with
                  sendLimiter := (limiterConsume SEND_STATE_LIMIT s.sendLimiter sid now).2 },
                  cur⟩ := by
                simp [stepM, stepEmit, handleSendState, hcur, hc, hms0, hmem, hv]
              rw [hstep]
              exact hinv0
            | true =>
              have hstep : stepM ⟨s, cur⟩ (.sendState sid data now) =
                  ⟨resetRoomTimeout { s with
                    sendLimiter := (limiterConsume SEND_STATE_LIMIT s.sendLimiter sid now).2 }
                    room now, cur⟩ := by
                simp [stepM, stepEmit, handleSendState, hcur, hc, hms0, hmem, hv]
              rw [hstep]
              exact machineInv_reset hinv0 (h.occupiedTimer room ms hms0) now
          · have hstep : stepM ⟨s, cur⟩ (.sendState sid data now) = ⟨{ s with
                sendLimiter := (limiterConsume SEND_STATE_LIMIT s.sendLimiter sid now).2 },
                cur⟩ := by
              simp [stepM, stepEmit, handleSendState, hcur, hc, hms0, hmem]
            rw [hstep]
            exact hinv0
  | join sid name now =>
    have hinv0 : MachineInv ⟨{ s with
        joinLimiter := (limiterConsume JOIN_ROOM_LIMIT s.joinLimiter sid now).2 }, cur⟩ :=
      machineInv_congr h rfl rfl (fun _ => rfl)
    cases hcur : mapGet cur sid with
    | none =>
      cases hc : (limiterConsume JOIN_ROOM_LIMIT s.joinLimiter sid now).1 with
      | false =>
        have hstep : stepM ⟨s, cur⟩ (.join sid name now) = ⟨{ s with
            joinLimiter := (limiterConsume JOIN_ROOM_LIMIT s.joinLimiter sid now).2 },
            mapErase cur sid⟩ := by
          simp [stepM, stepEmit, handleJoinRoom, hcur, hc]
        rw [hstep]
        exact machineInv_congr h rfl rfl (mapGet_mapErase_of_none hcur)
      | true =>
        cases hn : validRoomName name with
        | false =>
          have hstep : stepM ⟨s, cur⟩ (.join sid name now) = ⟨{ s with
              joinLimiter := (limiterConsume JOIN_ROOM_LIMIT s.joinLimiter sid now).2 },
              mapErase cur sid⟩ := by
            simp [stepM, stepEmit, handleJoinRoom, hcur, hc, hn]
          rw [hstep]
          exact machineInv_congr h rfl rfl (mapGet_mapErase_of_none hcur)
        | true =>
          by_cases hcap : getRoomPlayerCount s.rooms name = 0 ∧
              MAX_TOTAL_ROOMS ≤ s.roomTimeouts.length
          · have hstep : stepM ⟨s, cur⟩ (.join sid name now) = ⟨{ s with
                joinLimiter := (limiterConsume JOIN_ROOM_LIMIT s.joinLimiter sid now).2 },
                mapErase cur sid⟩ := by
              simp [stepM, stepEmit, handleJoinRoom, getTotalRoomCount, hcur, hc, hn, hcap]
            rw [hstep]
            exact machineInv_congr h rfl rfl (mapGet_mapErase_of_none hcur)
          · by_cases hfull : MAX_PLAYERS_PER_ROOM ≤ getRoomPlayerCount s.rooms name
            · have hstep : stepM ⟨s, cur⟩ (.join sid name now) = ⟨{ s with
                  joinLimiter := (limiterConsume JOIN_ROOM_LIMIT s.joinLimiter sid now).2 },
                  mapErase cur sid⟩ := by
                simp [stepM, stepEmit, handleJoinRoom, getTotalRoomCount, hcur, hc, hn,
                  hcap, hfull]
              rw [hstep]
              exact machineInv_congr h rfl rfl (mapGet_mapErase_of_none hcur)
            · have hstep : stepM ⟨s, cur⟩ (.join sid name now) =
                  ⟨resetRoomTimeout
                    { s with
                      joinLimiter := (limiterConsume JOIN_ROOM_LIMIT s.joinLimiter sid now).2,
                      rooms := adapterJoin s.rooms name sid } name now,
                    mapSet cur sid name⟩ := by
                simp [stepM, stepEmit, handleJoinRoom, getTotalRoomCount, hcur, hc, hn,
                  hcap, hfull]
              rw [hstep]
              apply machineInv_join_free now hinv0 hcur
              · show getRoomPlayerCount s.rooms name < MAX_PLAYERS_PER_ROOM
                omega
              · intro h0
                have h00 : getRoomPlayerCount s.rooms name = 0 := h0
                show s.roomTimeouts.length < MAX_TOTAL_ROOMS
                omega
    | some r0 =>
      cases hc : (limiterConsume JOIN_ROOM_LIMIT s.joinLimiter sid now).1 with
      | false =>
        have hstep : stepM ⟨s, cur⟩ (.join sid name now) = ⟨{ s with
            joinLimiter := (limiterConsume JOIN_ROOM_LIMIT s.joinLimiter sid now).2 },
            mapSet cur sid r0⟩ := by
          simp [stepM, stepEmit, handleJoinRoom, hcur, hc]
        rw [hstep]
        exact machineInv_congr h rfl rfl (mapGet_mapSet_of_get hcur)
      | true =>
        cases hn : validRoomName name with
        | false =>
          have hstep : stepM ⟨s, cur⟩ (.join sid name now) = ⟨{ s with
              joinLimiter := (limiterConsume JOIN_ROOM_LIMIT s.joinLimiter sid now).2 },
              mapSet cur sid r0⟩ := by
            simp [stepM, stepEmit, handleJoinRoom, hcur, hc, hn]
          rw [hstep]
          exact machineInv_congr h rfl rfl (mapGet_mapSet_of_get hcur)
        | true =>
          by_cases hcap : getRoomPlayerCount s.rooms name = 0 ∧
              MAX_TOTAL_ROOMS ≤ s.roomTimeouts.length
          · have hstep : stepM ⟨s, cur⟩ (.join sid name now) = ⟨{ s with
                joinLimiter := (limiterConsume JOIN_ROOM_LIMIT s.joinLimiter sid now).2 },
                mapSet cur sid r0⟩ := by
              simp [stepM, stepEmit, handleJoinRoom, getTotalRoomCount, hcur, hc, hn, hcap]
            rw [hstep]
            exact machineInv_congr h rfl rfl (mapGet_mapSet_of_get hcur)
          · by_cases hfull : MAX_PLAYERS_PER_ROOM ≤ getRoomPlayerCount s.rooms name
            · have hstep : stepM ⟨s, cur⟩ (.join sid name now) = ⟨{ s with
                  joinLimiter := (limiterConsume JOIN_ROOM_LIMIT s.joinLimiter sid now).2 },
                  mapSet cur sid r0⟩ := by
                simp [stepM, stepEmit, handleJoinRoom, getTotalRoomCount, hcur, hc, hn,
                  hcap, hfull]
              rw [hstep]
              exact machineInv_congr h rfl rfl (mapGet_mapSet_of_get hcur)
            · have hinv1 : MachineInv ⟨(leaveCurrentRoom { s with
                  joinLimiter := (limiterConsume JOIN_ROOM_LIMIT s.joinLimiter sid now).2 }
                  sid r0).1, mapErase cur sid⟩ :=
                machineInv_leave hinv0 hcur
              have hstep : stepM ⟨s, cur⟩ (.join sid name now) =
                  ⟨resetRoomTimeout
                    { (leaveCurrentRoom { s with
                        joinLimiter :=
                          (limiterConsume JOIN_ROOM_LIMIT s.joinLimiter sid now).2 }
                        sid r0).1 with
                      rooms := adapterJoin (leaveCurrentRoom { s with
                        joinLimiter :=
                          (limiterConsume JOIN_ROOM_LIMIT s.joinLimiter sid now).2 }
                        sid r0).1.rooms name sid } name now,
                    mapSet cur sid name⟩ := by
                simp [stepM, stepEmit, handleJoinRoom, getTotalRoomCount, hcur, hc, hn,
                  hcap, hfull]
              rw [hstep, ← mapSet_mapErase_self cur sid name]
              apply machineInv_join_free now hinv1
              · rw [mapGet_mapErase, if_pos rfl]
              · show getRoomPlayerCount (leaveCurrentRoom { s with
                  joinLimiter := (limiterConsume JOIN_ROOM_LIMIT s.joinLimiter sid now).2 }
                  sid r0).1.rooms name < MAX_PLAYERS_PER_ROOM
                rw [leaveCurrentRoom_rooms]
                calc getRoomPlayerCount (adapterLeave ({ s with
                      joinLimiter :=
                        (limiterConsume JOIN_ROOM_LIMIT s.joinLimiter sid now).2 } :
                      ServerState).rooms r0 sid) name
                    ≤ getRoomPlayerCount s.rooms name :=
                      getRoomPlayerCount_adapterLeave_le _ _ _ _
                  _ < MAX_PLAYERS_PER_ROOM := by omega
              · intro hpc10
                show (leaveCurrentRoom { s with
                    joinLimiter := (limiterConsume JOIN_ROOM_LIMIT s.joinLimiter sid now).2 }
                    sid r0).1.roomTimeouts.length < MAX_TOTAL_ROOMS
                rw [leaveCurrentRoom_rooms] at hpc10
                by_cases hr0 : r0 = name
                · subst hr0
                  obtain ⟨ms, hms, hmem⟩ := (h.sync sid r0).mp hcur
                  replace hms : mapGet s.rooms r0 = some ms := hms
                  obtain ⟨d, hd⟩ := h.occupiedTimer r0 ms hms
                  replace hd : mapGet s.roomTimeouts r0 = some d := hd
                  rw [leaveCurrentRoom_timeouts, if_pos hpc10]
                  exact lt_of_lt_of_le (length_mapErase_lt hd) h.timerBound
                · have hpc_eq : getRoomPlayerCount (adapterLeave ({ s with
                      joinLimiter :=
                        (limiterConsume JOIN_ROOM_LIMIT s.joinLimiter sid now).2 } :
                      ServerState).rooms r0 sid) name = getRoomPlayerCount s.rooms name := by
                    simp [getRoomPlayerCount,
                      mapGet_adapterLeave_ne _ _ _ (fun hq => hr0 hq.symm)]
                  rw [hpc_eq] at hpc10
                  have hlen : s.roomTimeouts.length < MAX_TOTAL_ROOMS := by omega
                  rw [leaveCurrentRoom_timeouts]
                  split
                  · exact lt_of_le_of_lt (length_mapErase_le _ _) hlen
                  · exact hlen
  | timerFire name =>
    cases hms : mapGet s.rooms name with
    | none =>
      have hstep : stepM ⟨s, cur⟩ (.timerFire name) = ⟨clearRoomTimeout s name, cur⟩ := by
        simp [stepM, stepEmit, stepTimerFire, hms]
      rw [hstep]
      constructor
      · intro r ms hm
        exact h.roomsBound r ms hm
      · show (mapErase s.roomTimeouts name).length ≤ MAX_TOTAL_ROOMS
        exact le_trans (length_mapErase_le _ _) h.timerBound
      · intro r ms hm
        have hm0 : mapGet s.rooms r = some ms := hm
        show ∃ d, mapGet (mapErase s.roomTimeouts name) r = some d
        have hr : r ≠ name := fun hq => by rw [hq, hms] at hm0; cases hm0
        rw [mapGet_mapErase, if_neg hr]
        exact h.occupiedTimer r ms hm0
      · exact h.sync
    | some ms =>
      obtain ⟨hlen, hnodup, hne⟩ := h.roomsBound name ms hms
      have hcurs : ∀ sid ∈ ms, mapGet cur sid = some name :=
        fun sid hmem => (h.sync sid name).mpr ⟨ms, hms, hmem⟩
      obtain ⟨crooms, ctimers, ccur, clen⟩ :=
        cascadeDisconnect_spec name ms s cur hms hne hnodup hcurs
      have hstep : stepM ⟨s, cur⟩ (.timerFire name) =
          ⟨{ (cascadeDisconnect s cur ms).1 with
            roomTimeouts := mapErase (cascadeDisconnect s cur ms).1.roomTimeouts name },
            (cascadeDisconnect s cur ms).2.1⟩ := by
        simp [stepM, stepEmit, stepTimerFire, hms]
      rw [hstep]
      constructor
      · intro r ms' hm'
        have hm0 : mapGet (cascadeDisconnect s cur ms).1.rooms r = some ms' := hm'
        rw [crooms r] at hm0
        by_cases h0 : r = name
        · rw [if_pos h0] at hm0
          cases hm0
        · rw [if_neg h0] at hm0
          exact h.roomsBound r ms' hm0
      · show (mapErase (cascadeDisconnect s cur ms).1.roomTimeouts name).length ≤
          MAX_TOTAL_ROOMS
        exact le_trans (length_mapErase_le _ _) (le_trans clen h.timerBound)
      · intro r ms' hm'
        have hm0 : mapGet (cascadeDisconnect s cur ms).1.rooms r = some ms' := hm'
        rw [crooms r] at hm0
        show ∃ d, mapGet (mapErase (cascadeDisconnect s cur ms).1.roomTimeouts name) r =
          some d
        by_cases h0 : r = name
        · rw [if_pos h0] at hm0
          cases hm0
        · rw [if_neg h0] at hm0
          rw [mapGet_mapErase, if_neg h0, ctimers r, if_neg h0]
          exact h.occupiedTimer r ms' hm0
      · intro sid0 r
        show mapGet (cascadeDisconnect s cur ms).2.1 sid0 = some r ↔
          ∃ ms', mapGet (cascadeDisconnect s cur ms).1.rooms r = some ms' ∧ sid0 ∈ ms'
        rw [ccur sid0]
        by_cases hin : sid0 ∈ ms
        · rw [if_pos hin]
          constructor
          · intro hq
            cases hq
          · rintro ⟨ms', hm', hmem'⟩
            rw [crooms r] at hm'
            by_cases h0 : r = name
            · rw [if_pos h0] at hm'
              cases hm'
            · rw [if_neg h0] at hm'
              have hq1 := (h.sync sid0 r).mpr ⟨ms', hm', hmem'⟩
              have hq2 := (h.sync sid0 name).mpr ⟨ms, hms, hin⟩
              rw [hq2, Option.some.injEq] at hq1
              exact absurd hq1.symm h0
        · rw [if_neg hin, h.sync sid0 r]
          constructor
          · rintro ⟨ms', hm', hmem'⟩
            by_cases h0 : r = name
            · subst h0
              replace hm' : mapGet s.rooms r = some ms' := hm'
              rw [hms, Option.some.injEq] at hm'
              subst hm'
              exact absurd hmem' hin
            · refine ⟨ms', ?_, hmem'⟩
              rw [crooms r, if_neg h0]
              exact hm'
          · rintro ⟨ms', hm', hmem'⟩
            rw [crooms r] at hm'
            by_cases h0 : r = name
            · rw [if_pos h0] at hm'
              cases hm'
            · rw [if_neg h0] at hm'
              exact ⟨ms', hm', hmem'⟩

theorem machineInv_init : MachineInv initialMachine := by
  constructor
  · intro r ms hm
    simp [initialMachine, initialServer, mapGet] at hm
  · show ([] : List (String × Nat)).length ≤ MAX_TOTAL_ROOMS
    simp [MAX_TOTAL_ROOMS]
  · intro r ms hm
    simp [initialMachine, initialServer, mapGet] at hm
  · intro sid r
    simp [initialMachine, initialServer, mapGet]

theorem machineInv_run (es : List Event) : MachineInv (runM initialMachine es) := by
  have hgen : ∀ (m : Machine), MachineInv m → MachineInv (runM m es) := by
    induction es with
    | nil => intro m hm; exact hm
    | cons e es ih =>
      intro m hm
      exact ih (stepM m e) (machineInv_step m e hm)
  exact hgen initialMachine machineInv_init

/-! ### C2: at most two members per room -/

/-- C2.  Over every sequence of events processed from the initial server
state — joins, leaves, relays, disconnects and timer fires — every room in
the adapter holds at most `MAX_PLAYERS_PER_ROOM = 2` members; and a join
targeting a room whose occupancy is already at least 2 is always rejected
without touching the adapter rooms. -/
theorem room_capacity_two :
    (∀ (es : List Event) (r : String) (ms : List String),
      mapGet (runM initialMachine es).server.rooms r = some ms →
      ms.length ≤ MAX_PLAYERS_PER_ROOM) ∧
    (∀ (s : ServerState) (sid name : String) (cur : Option String) (now : Nat),
      MAX_PLAYERS_PER_ROOM ≤ getRoomPlayerCount s.rooms name →
      (handleJoinRoom s sid name cur now).response.success = false ∧
      (handleJoinRoom s sid name cur now).state.rooms = s.rooms) := by
  constructor
  · intro es r ms hm
    exact ((machineInv_run es).roomsBound r ms hm).1
  · intro s sid name cur now hfull
    cases hc : (limiterConsume JOIN_ROOM_LIMIT s.joinLimiter sid now).1 with
    | false => simp [handleJoinRoom, hc, joinFailure]
    | true =>
      cases hn : validRoomName name with
      | false => simp [handleJoinRoom, hc, hn, joinFailure]
      | true =>
        have hne0 : ¬(getRoomPlayerCount s.rooms name = 0 ∧
            MAX_TOTAL_ROOMS ≤ s.roomTimeouts.length) := by
          rintro ⟨h0, _⟩
          rw [h0] at hfull
          simp [MAX_PLAYERS_PER_ROOM] at hfull
        simp [handleJoinRoom, getTotalRoomCount, hc, hn, hne0, hfull, joinFailure]

/-- C2 witness: after two sockets join room "r" a third join is rejected, so
the room ends the trace with its two members; a direct join into a full
room fails and leaves the adapter untouched. -/
theorem room_capacity_two_witness :
    (["a", "b"] : List String).length ≤ MAX_PLAYERS_PER_ROOM ∧
    (handleJoinRoom ⟨[("r", ["a", "b"])], [("r", 600000)], [], [], [], []⟩ "c" "r" none
        3).response.success = false ∧
    (handleJoinRoom ⟨[("r", ["a", "b"])], [("r", 600000)], [], [], [], []⟩ "c" "r" none
        3).state.rooms = [("r", ["a", "b"])] := by
  refine ⟨room_capacity_two.1 [.join "a" "r" 0, .join "b" "r" 1, .join "c" "r" 2] "r"
      ["a", "b"] (by decide), ?_, ?_⟩
  · exact (room_capacity_two.2 ⟨[("r", ["a", "b"])], [("r", 600000)], [], [], [], []⟩
      "c" "r" none 3 (by decide)).1
  · exact ((room_capacity_two.2 ⟨[("r", ["a", "b"])], [("r", 600000)], [], [], [], []⟩
      "c" "r" none 3 (by decide)).2).trans rfl

/-! ### C6: global room cap, enforced at creation only -/

/-- C6.  The total-room cap is enforced exactly at room creation: a join
aimed at a room of occupancy 0 while `getTotalRoomCount` is at
`MAX_TOTAL_ROOMS = 10000` is rejected with the capacity error and changes
neither the adapter rooms nor the timer map (so no room is created); a join
to an existing, non-full room succeeds regardless of the global count; and
along every event sequence from the initial state the total room count
never exceeds `MAX_TOTAL_ROOMS`. -/
theorem total_rooms_cap :
    (∀ es : List Event,
      getTotalRoomCount (runM initialMachine es).server ≤ MAX_TOTAL_ROOMS) ∧
    (∀ (s : ServerState) (sid name : String) (cur : Option String) (now : Nat),
      getRoomPlayerCount s.rooms name = 0 → MAX_TOTAL_ROOMS ≤ getTotalRoomCount s →
      (limiterConsume JOIN_ROOM_LIMIT s.joinLimiter sid now).1 = true →
      validRoomName name = true →
      (handleJoinRoom s sid name cur now).response =
        joinFailure "Server is at capacity. Please try again later." ∧
      (handleJoinRoom s sid name cur now).state.rooms = s.rooms ∧
      (handleJoinRoom s sid name cur now).state.roomTimeouts = s.roomTimeouts) ∧
    (∀ (s : ServerState) (sid name : String) (cur : Option String) (now : Nat),
      1 ≤ getRoomPlayerCount s.rooms name →
      getRoomPlayerCount s.rooms name < MAX_PLAYERS_PER_ROOM →
      (limiterConsume JOIN_ROOM_LIMIT s.joinLimiter sid now).1 = true →
      validRoomName name = true →
      (handleJoinRoom s sid name cur now).response.success = true) := by
  refine ⟨?_, ?_, ?_⟩
  · intro es
    exact (machineInv_run es).timerBound
  · intro s sid name cur now hpc0 hcap hc hn
    have hlen : MAX_TOTAL_ROOMS ≤ s.roomTimeouts.length := hcap
    have hcap0 : getRoomPlayerCount s.rooms name = 0 ∧
        MAX_TOTAL_ROOMS ≤ s.roomTimeouts.length := ⟨hpc0, hlen⟩
    simp [handleJoinRoom, getTotalRoomCount, hc, hn, hcap0, joinFailure]
  · intro s sid name cur now hpc1 hpc2 hc hn
    have hcap0 : ¬(getRoomPlayerCount s.rooms name = 0 ∧
        MAX_TOTAL_ROOMS ≤ s.roomTimeouts.length) := by
      rintro ⟨h0, _⟩
      omega
    have hfull0 : ¬(MAX_PLAYERS_PER_ROOM ≤ getRoomPlayerCount s.rooms name) := by omega
    cases cur with
    | none => simp [handleJoinRoom, getTotalRoomCount, hc, hn, hcap0, hfull0]
    | some r0 => simp [handleJoinRoom, getTotalRoomCount, hc, hn, hcap0, hfull0]

/-- C6 witness: with 10000 registered room timers, a join that would create
a new room is rejected with the capacity error while a join to an existing
one-member room succeeds. -/
theorem total_rooms_cap_witness :
    (handleJoinRoom ⟨[], List.replicate 10000 ("x", 0), [], [], [], []⟩ "a" "r" none
        0).response = joinFailure "Server is at capacity. Please try again later." ∧
    (handleJoinRoom ⟨[("r", ["b"])], List.replicate 10000 ("x", 0), [], [], [], []⟩ "a" "r"
        none 0).response.success = true := by
  constructor
  · exact (total_rooms_cap.2.1 ⟨[], List.replicate 10000 ("x", 0), [], [], [], []⟩ "a" "r"
      none 0 (by simp [getRoomPlayerCount, mapGet])
      (by
        show MAX_TOTAL_ROOMS ≤ (List.replicate 10000 (("x", (0 : Nat)))).length
        rw [List.length_replicate]
        exact Nat.le_refl 10000)
      (by decide) (by decide)).1
  · exact total_rooms_cap.2.2 ⟨[("r", ["b"])], List.replicate 10000 ("x", 0), [], [], [], []⟩
      "a" "r" none 0 (by simp [getRoomPlayerCount, mapGet])
      (by simp [getRoomPlayerCount, mapGet, MAX_PLAYERS_PER_ROOM]) (by decide) (by decide)

end TicTacToe
